import Mathlib

/-!
Verification development for the robo-trader portfolio-management core:
a shallow embedding of `robo_trader/broker.py`, `robo_trader/brokers/backtest_broker.py`
and `robo_trader/portfolio.py` (Python floats are modelled by `ℚ`, `datetime`
by `ℤ` seconds, `uuid4` by a fresh-id counter, Python `dict` by an
insertion-ordered association list, and Python exceptions by an error value
that is returned alongside the state reached at the moment of the raise,
since Python mutations performed before a raise survive it).

The `BacktestBroker` and the `Portfolio` driving it share one state `Sys`:
in the source the Portfolio caches the very `Order` objects owned by its
broker (`fetch_order` returns the object itself), so the Portfolio's order
table is embedded as the list of order ids it holds, the order data living
in the broker's table.  Prints (and only prints) are dropped.
-/

namespace RoboTrader

/-- `OrderType` string constants of `broker.py`. -/
inductive OrderType
  | MARKET
  | LIMIT
  | STOP_LOSS
  | TRAILING_STOP
  | TAKE_PROFIT
deriving DecidableEq

/-- `OrderSide` string constants of `broker.py`. -/
inductive OrderSide
  | BUY
  | SELL
deriving DecidableEq

/-- `OrderStatus` string constants of `broker.py`. -/
inductive OrderStatus
  | FILLED
  | CANCELLED
  | PENDING
  | PARTIALLY_FILLED
deriving DecidableEq

/-- `PositionSide` enum of `portfolio.py`. -/
inductive PositionSide
  | LONG
  | SHORT
deriving DecidableEq

/-- Python exceptions raised by the embedded code: `ValueError(msg)`,
`TypeError` (arithmetic/comparison with `None`), and `AttributeError`
(attribute access on `None`). -/
inductive Err
  | valueError (msg : String)
  | typeError
  | attributeError
deriving DecidableEq

/-- The `Trade` dataclass of `broker.py`.  `timestamp` is optional because
the broker's clock starts as `None`. -/
structure Trade where
  id : ℕ
  order_id : ℕ
  symbol : String
  order_type : OrderType
  order_side : OrderSide
  price : ℚ
  quantity : ℚ
  timestamp : Option ℤ
  transaction_costs : ℚ
deriving DecidableEq

/-- The `Order` dataclass of `broker.py`. -/
structure Order where
  id : ℕ
  symbol : String
  order_type : OrderType
  order_side : OrderSide
  quantity : ℚ
  trail : Option ℚ
  limit : Option ℚ
  stop : Option ℚ
  status : OrderStatus
  timestamp : Option ℤ
  trades : List Trade
deriving DecidableEq

/-- The `Position` class of `portfolio.py` (all attributes set in `__init__`). -/
structure Position where
  symbol : String
  side : PositionSide
  amount_invested : ℚ
  trail_percentage : Option ℚ
  take_profit_percentage : Option ℚ
  stop_percentage : Option ℚ
  is_open : Bool
  open_price : Option ℚ
  close_price : Option ℚ
  quantity : Option ℚ
  order_ids : List ℕ
deriving DecidableEq

/-- `Position.__init__`: six parameters, remaining attributes defaulted. -/
def Position.make (symbol : String) (side : PositionSide) (amount_invested : ℚ)
    (trail_percentage take_profit_percentage stop_percentage : Option ℚ) : Position :=
  { symbol := symbol, side := side, amount_invested := amount_invested,
    trail_percentage := trail_percentage,
    take_profit_percentage := take_profit_percentage,
    stop_percentage := stop_percentage,
    is_open := true, open_price := none, close_price := none,
    quantity := none, order_ids := [] }

/-- `Position.set_quantity` (note Python's truthiness: quantity `0` leaves
`open_price = None`). -/
def Position.setQuantity (p : Position) (q : ℚ) : Position :=
  { p with quantity := some q,
           open_price := if q ≠ 0 then some (p.amount_invested / q) else none }

/-- `Position.close`. -/
def Position.closeAt (p : Position) (cp : ℚ) : Position :=
  { p with is_open := false, close_price := some cp }

/-- One record of `Portfolio.valuation_history`. -/
structure ValRec where
  timestamp : ℤ
  valuation : ℚ
  prices : Option (List (String × ℚ))
  asset_holdings : List (String × ℚ)
deriving DecidableEq

/-- The combined state of one `BacktestBroker` and the `Portfolio` driving it.
`portfolioOrders` is the (insertion-ordered) key set of `Portfolio.orders`;
the cached `Order` objects are the broker's own (aliasing in the source). -/
structure Sys where
  brokerOrders : List (ℕ × Order)
  current_prices : List (String × ℚ)
  current_timestamp : Option ℤ
  transaction_cost : ℚ
  trailing_stop_penalty_relief : ℚ
  nextId : ℕ
  cash : ℚ
  asset_holdings : List (String × ℚ)
  portfolioOrders : List ℕ
  processed_trades : List ℕ
  positions : List Position
  valuation_history : List ValRec
  autosave : Bool
deriving DecidableEq

/-- First-match lookup in an insertion-ordered association list (Python `dict.get`). -/
def alookup {κ α : Type} [DecidableEq κ] (l : List (κ × α)) (k : κ) : Option α :=
  match l with
  | [] => none
  | (k', v) :: rest => if k' = k then some v else alookup rest k

/-- Python `dict` assignment: replace in place if the key exists, else append. -/
def dictInsert {κ α : Type} [DecidableEq κ] (l : List (κ × α)) (k : κ) (v : α) : List (κ × α) :=
  match l with
  | [] => [(k, v)]
  | (k', v') :: rest => if k' = k then (k, v) :: rest else (k', v') :: dictInsert rest k v

/-- Add an order id to the portfolio's key list (`self.orders[id] = order`:
a fresh key is appended, an existing key keeps its slot). -/
def addId (l : List ℕ) (k : ℕ) : List ℕ :=
  if k ∈ l then l else l ++ [k]

/-- Replace the element at index `i` (in-place mutation of a list member). -/
def listUpdateAt {α : Type} (l : List α) (i : ℕ) (f : α → α) : List α :=
  match l, i with
  | [], _ => []
  | a :: rest, 0 => f a :: rest
  | a :: rest, n + 1 => a :: listUpdateAt rest n f

/-- `uuid.uuid4()` modelled by a fresh-id counter: ids are opaque distinct
tokens, embedded as the naturals handed out by `Sys.nextId`. -/
def mkId (n : ℕ) : ℕ := n

/-- `BacktestBroker.get_price`: defaults to `0` for an unknown symbol. -/
def getPrice (s : Sys) (symbol : String) : ℚ :=
  (alookup s.current_prices symbol).getD 0

/-- `BacktestBroker._execute_order` as a pure function of the broker
parameters it reads: default timestamp is the broker clock, default price is
`current_prices.get(symbol, 0)` (passed in as `defPrice`); appends one trade
(consuming one fresh id) and marks the order FILLED. -/
def executeOrderP (tcRate : ℚ) (curTs : Option ℤ) (defPrice : ℚ) (n : ℕ)
    (o : Order) (ts : Option ℤ) (priceArg : Option ℚ) : Order × ℕ :=
  let ts' : Option ℤ := match ts with | some t => some t | none => curTs
  let price := priceArg.getD defPrice
  let asset_cost := price * o.quantity
  let tcost := asset_cost * tcRate
  let trade : Trade :=
    { id := mkId n, order_id := o.id, symbol := o.symbol,
      order_type := o.order_type, order_side := o.order_side,
      price := price, quantity := o.quantity, timestamp := ts',
      transaction_costs := tcost }
  ({ o with trades := o.trades ++ [trade], status := OrderStatus.FILLED }, n + 1)

/-- `BacktestBroker.create_order`.  Validation order follows the source:
quantity/cash exclusivity, positivity of each, trail vs take-profit
exclusivity, then the price check.  `None` arithmetic in the stop/limit
computations raises `TypeError`.  MARKET and LIMIT orders execute
synchronously. -/
def createOrder (s : Sys) (symbol : String) (order_type : OrderType) (order_side : OrderSide)
    (quantity cash_amount trail limit stop take_profit : Option ℚ) :
    Except Err (Order × Sys) :=
  if (quantity = none ∧ cash_amount = none) ∨ (quantity ≠ none ∧ cash_amount ≠ none) then
    Except.error (Err.valueError "Exactly one of quantity or cash_amount must be provided")
  else if (match quantity with | some q => decide (q ≤ 0) | none => false) then
    Except.error (Err.valueError "Quantity must be positive")
  else if (match cash_amount with | some c => decide (c ≤ 0) | none => false) then
    Except.error (Err.valueError "Cash amount must be positive")
  else if trail ≠ none ∧ take_profit ≠ none then
    Except.error (Err.valueError "Only one of trail or take_profit can be set")
  else
    let current_price := getPrice s symbol
    if current_price ≤ 0 then
      Except.error (Err.valueError "Invalid price")
    else
      let qty := match quantity with
        | some q => q
        | none =>
          let c := cash_amount.getD 0
          let transaction_cost := c * s.transaction_cost
          let available_cash := c - transaction_cost
          available_cash / current_price
      let stopRes : Except Err (Option ℚ) :=
        match order_type with
        | OrderType.TRAILING_STOP =>
          match trail with
          | none => Except.error Err.typeError
          | some tr =>
            match order_side with
            | OrderSide.BUY => Except.ok (some (current_price * (1 + tr)))
            | OrderSide.SELL => Except.ok (some (current_price * (1 - tr)))
        | OrderType.TAKE_PROFIT =>
          match take_profit with
          | none => Except.error Err.typeError
          | some tp =>
            match order_side with
            | OrderSide.BUY => Except.ok (some (current_price * (1 - tp)))
            | OrderSide.SELL => Except.ok (some (current_price * (1 + tp)))
        | OrderType.STOP_LOSS =>
          match stop with
          | none => Except.error Err.typeError
          | some sp =>
            match order_side with
            | OrderSide.BUY => Except.ok (some (current_price * (1 + sp)))
            | OrderSide.SELL => Except.ok (some (current_price * (1 - sp)))
        | _ => Except.ok none
      match stopRes with
      | Except.error e => Except.error e
      | Except.ok stop_amount =>
        let trail_amount := trail.map (fun tr => tr * current_price)
        let limitRes : Except Err (Option ℚ) :=
          match order_type with
          | OrderType.LIMIT =>
            match limit with
            | none => Except.error Err.typeError
            | some li =>
              match order_side with
              | OrderSide.BUY => Except.ok (some (current_price * (1 - li)))
              | OrderSide.SELL => Except.ok (some (current_price * (1 + li)))
          | _ => Except.ok none
        match limitRes with
        | Except.error e => Except.error e
        | Except.ok limit_amount =>
          let order_id := mkId s.nextId
          let order0 : Order :=
            { id := order_id, symbol := symbol, order_type := order_type,
              order_side := order_side, status := OrderStatus.PENDING,
              quantity := qty, trail := trail_amount, limit := limit_amount,
              stop := stop_amount, timestamp := s.current_timestamp, trades := [] }
          let r : Order × ℕ :=
            if order_type = OrderType.MARKET ∨ order_type = OrderType.LIMIT then
              executeOrderP s.transaction_cost s.current_timestamp
                (getPrice s symbol) (s.nextId + 1) order0 none none
            else (order0, s.nextId + 1)
          Except.ok (r.1, { s with nextId := r.2,
                                   brokerOrders := dictInsert s.brokerOrders order_id r.1 })

/-- `BacktestBroker.edit_order`: sets `stop` on the order if the id exists,
with no status guard; silent no-op for an unknown id. -/
def editOrder (s : Sys) (order_id : ℕ) (stop : ℚ) : Sys :=
  let f := fun (kv : ℕ × Order) =>
    if kv.1 = order_id then (kv.1, { kv.2 with stop := some stop }) else kv
  { s with brokerOrders := s.brokerOrders.map f }

/-- `BacktestBroker.cancel_order`: sets status CANCELLED if the id exists,
with no status guard; silent no-op for an unknown id. -/
def cancelOrder (s : Sys) (order_id : ℕ) : Sys :=
  let f := fun (kv : ℕ × Order) =>
    if kv.1 = order_id then (kv.1, { kv.2 with status := OrderStatus.CANCELLED }) else kv
  { s with brokerOrders := s.brokerOrders.map f }

/-- The per-order body of the loop in `BacktestBroker.update` (lines 94-130):
given the tick data and the fresh-id counter, decide whether the pending
conditional order fills, ratchets, or is left alone.  Comparisons against a
`None` stop or trail raise `TypeError`. -/
def brokerUpdateStep (tcRate relief : ℚ) (t : ℤ) (prices : List (String × ℚ))
    (n : ℕ) (o : Order) : Except Err (Order × ℕ) :=
  if o.status ≠ OrderStatus.PENDING then Except.ok (o, n)
  else
    match alookup prices o.symbol with
    | none => Except.ok (o, n)
    | some current_price =>
      match o.order_type with
      | OrderType.STOP_LOSS =>
        match o.stop with
        | none => Except.error Err.typeError
        | some st =>
          if (o.order_side = OrderSide.BUY ∧ current_price ≥ st) ∨
             (o.order_side = OrderSide.SELL ∧ current_price ≤ st) then
            Except.ok (executeOrderP tcRate (some t) current_price n o none none)
          else Except.ok (o, n)
      | OrderType.TRAILING_STOP =>
        match o.stop with
        | none => Except.error Err.typeError
        | some st =>
          let price_difference := current_price - st
          let trade_price := current_price - price_difference * relief
          let trade_timestamp : ℤ := t - 1
          match o.order_side with
          | OrderSide.BUY =>
            if price_difference ≥ 0 then
              Except.ok (executeOrderP tcRate (some t) current_price n o
                (some trade_timestamp) (some trade_price))
            else
              match o.trail with
              | none => Except.error Err.typeError
              | some tra =>
                let new_stop := current_price + tra
                if new_stop < st then Except.ok ({ o with stop := some new_stop }, n)
                else Except.ok (o, n)
          | OrderSide.SELL =>
            if price_difference ≤ 0 then
              Except.ok (executeOrderP tcRate (some t) current_price n o
                (some trade_timestamp) (some trade_price))
            else
              match o.trail with
              | none => Except.error Err.typeError
              | some tra =>
                let new_stop := current_price - tra
                if new_stop > st then Except.ok ({ o with stop := some new_stop }, n)
                else Except.ok (o, n)
      | OrderType.TAKE_PROFIT =>
        match o.stop with
        | none => Except.error Err.typeError
        | some st =>
          match o.order_side with
          | OrderSide.BUY =>
            if current_price ≤ st then
              Except.ok (executeOrderP tcRate (some t) current_price n o none none)
            else Except.ok (o, n)
          | OrderSide.SELL =>
            if current_price ≥ st then
              Except.ok (executeOrderP tcRate (some t) current_price n o none none)
            else Except.ok (o, n)
      | _ => Except.ok (o, n)

/-- The order loop of `BacktestBroker.update`: each entry is rewritten in
place; an exception keeps the mutations already made and leaves the rest of
the table untouched. -/
def brokerOrdersLoop (tcRate relief : ℚ) (t : ℤ) (prices : List (String × ℚ)) :
    List (ℕ × Order) → ℕ → List (ℕ × Order) × ℕ × Option Err
  | [], n => ([], n, none)
  | (k, o) :: rest, n =>
    match brokerUpdateStep tcRate relief t prices n o with
    | Except.error e => ((k, o) :: rest, n, some e)
    | Except.ok (o', n') =>
      let r := brokerOrdersLoop tcRate relief t prices rest n'
      ((k, o') :: r.1, r.2.1, r.2.2)

/-- `BacktestBroker.update(timestamp, prices)`: record the tick, then
re-evaluate every pending order. -/
def brokerUpdate (s : Sys) (t : ℤ) (prices : List (String × ℚ)) : Sys × Option Err :=
  let s0 := { s with current_timestamp := some t, current_prices := prices }
  let r := brokerOrdersLoop s0.transaction_cost s0.trailing_stop_penalty_relief t prices
    s0.brokerOrders s0.nextId
  ({ s0 with brokerOrders := r.1, nextId := r.2.1 }, r.2.2)

/-- A sequence of consecutive `BacktestBroker.update` calls (the backtest
driver), stopping at the first exception. -/
def runTicks (s : Sys) : List (ℤ × List (String × ℚ)) → Sys × Option Err
  | [] => (s, none)
  | (t, p) :: rest =>
    match brokerUpdate s t p with
    | (s', some e) => (s', some e)
    | (s', none) => runTicks s' rest

/-- The cached `Order` objects of `Portfolio.orders`, in `dict.values()`
order (they alias the broker's orders). -/
def portfolioOrderVals (s : Sys) : List Order :=
  s.portfolioOrders.filterMap (alookup s.brokerOrders)

/-- Rewrite the first open position for `sym` (the source's
`next((pos for pos in self.positions if pos.symbol == ... and pos.is_open), None)`
followed by an in-place mutation; no match means no change). -/
def updateFirstOpenPos (sym : String) (f : Position → Position) :
    List Position → List Position
  | [] => []
  | p :: rest =>
    if p.symbol = sym ∧ p.is_open = true then f p :: rest
    else p :: updateFirstOpenPos sym f rest

/-- The complementary protective type of the OCO pair. -/
def otherProtectiveType (t : OrderType) : OrderType :=
  if t = OrderType.TAKE_PROFIT then OrderType.STOP_LOSS else OrderType.TAKE_PROFIT

/-- One iteration of the trade loop of `Portfolio._process_order`
(lines 374-406): skip a processed trade id, otherwise apply the trade to
cash/holdings, update or close the matching position, cancel the OCO
sibling for a filled TAKE_PROFIT/STOP_LOSS sell, and record the trade id. -/
def processTradeStep (s : Sys) (o : Order) (tr : Trade) : Sys :=
  if tr.id ∈ s.processed_trades then s
  else
    let s1 :=
      match o.order_side with
      | OrderSide.BUY =>
        let s' := { s with
          cash := s.cash - (tr.price * tr.quantity + tr.transaction_costs),
          asset_holdings := dictInsert s.asset_holdings tr.symbol
            ((alookup s.asset_holdings tr.symbol).getD 0 + tr.quantity) }
        { s' with positions :=
            updateFirstOpenPos tr.symbol (fun p => p.setQuantity tr.quantity) s'.positions }
      | OrderSide.SELL =>
        let s' := { s with
          cash := s.cash + (tr.price * tr.quantity - tr.transaction_costs),
          asset_holdings := dictInsert s.asset_holdings tr.symbol
            ((alookup s.asset_holdings tr.symbol).getD 0 - tr.quantity) }
        if s'.positions.any (fun p => decide (p.symbol = tr.symbol ∧ p.is_open = true)) then
          let s2 := { s' with positions :=
              updateFirstOpenPos tr.symbol (fun p => p.closeAt tr.price) s'.positions }
          if o.order_type = OrderType.TAKE_PROFIT ∨ o.order_type = OrderType.STOP_LOSS then
            match (portfolioOrderVals s2).find? (fun (oo : Order) =>
                decide (oo.symbol = tr.symbol ∧
                        oo.order_type = otherProtectiveType o.order_type ∧
                        oo.status = OrderStatus.PENDING)) with
            | some other => cancelOrder s2 other.id
            | none => s2
          else s2
        else s'
    { s1 with processed_trades := s1.processed_trades ++ [tr.id] }

/-- `Portfolio._process_order`: fold the trade loop over the order's trades. -/
def processOrder (s : Sys) (o : Order) : Sys :=
  o.trades.foldl (fun s tr => processTradeStep s o tr) s

/-- The reconciliation loop of `Portfolio._update_orders` (lines 316-324):
for each held order id, re-fetch the broker's order (the cached object is
the broker's own, so the fetch is the lookup) and process it.  A
dangling id — impossible in the aliased system, where `fetch_order` would
return the cached object itself — is modelled as the `AttributeError` that
`fetch_order(...).status` on `None` would raise.  Processes the trades of
each fetched order. -/
def updateOrdersLoop : Sys → List ℕ → Sys × Option Err
  | s, [] => (s, none)
  | s, oid :: rest =>
    match alookup s.brokerOrders oid with
    | none => (s, some Err.attributeError)
    | some o => updateOrdersLoop (processOrder s o) rest

/-- End of one iteration of the protective-order loop (lines 369-371):
Python checks `if 'new_order' in locals()`, so a binding left over from an
earlier iteration is re-applied here; the order id is put in
`Portfolio.orders` and appended to the position's `order_ids`. -/
def applyNewOrder (s : Sys) (i : ℕ) (no : Option Order) : Sys × Option Order :=
  match no with
  | none => (s, none)
  | some o =>
    ({ s with portfolioOrders := addId s.portfolioOrders o.id,
              positions := listUpdateAt s.positions i
                (fun p => { p with order_ids := p.order_ids ++ [o.id] }) }, some o)

/-- One iteration of the protective-order maintenance loop of
`Portfolio._update_orders` (lines 327-371), for the position at index `i`,
threading the `new_order` local through iterations.  For an open LONG
position with a registered fill: (a) with no active protective sell order,
submit the configured trailing stop or take-profit/stop-loss pair; (b) with
an active trailing stop and a price above the open price, recompute a
tighter trail from the profit — dividing by `take_profit_percentage`, a
`TypeError` when that is `None` — and cancel/resubmit if the new stop is
strictly higher. -/
def maintenanceStep (s : Sys) (i : ℕ) (no : Option Order) :
    (Sys × Option Order) × Option Err :=
  match s.positions.get? i with
  | none => ((s, no), none)
  | some pos =>
    if ¬(pos.is_open = true ∧ pos.side = PositionSide.LONG ∧ pos.quantity ≠ none) then
      ((s, no), none)
    else
      let current_price := getPrice s pos.symbol
      let active := (portfolioOrderVals s).filter (fun o =>
        decide (o.symbol = pos.symbol ∧ o.order_side = OrderSide.SELL ∧
          (o.order_type = OrderType.TRAILING_STOP ∨ o.order_type = OrderType.TAKE_PROFIT ∨
           o.order_type = OrderType.STOP_LOSS) ∧
          o.status ≠ OrderStatus.FILLED ∧ o.status ≠ OrderStatus.CANCELLED))
      if active.isEmpty then
        match pos.trail_percentage with
        | some trp =>
          match createOrder s pos.symbol OrderType.TRAILING_STOP OrderSide.SELL
              pos.quantity none (some trp) none none none with
          | Except.error e => ((s, no), some e)
          | Except.ok (o, s') => (applyNewOrder s' i (some o), none)
        | none =>
          match pos.take_profit_percentage, pos.stop_percentage with
          | some tp, some sp =>
            match createOrder s pos.symbol OrderType.TAKE_PROFIT OrderSide.SELL
                pos.quantity none none none none (some tp) with
            | Except.error e => ((s, no), some e)
            | Except.ok (o1, s1) =>
              match createOrder s1 pos.symbol OrderType.STOP_LOSS OrderSide.SELL
                  pos.quantity none none none (some sp) none with
              | Except.error e => ((s1, no), some e)
              | Except.ok (o2, s2) =>
                let s3 := { s2 with
                  portfolioOrders := addId (addId s2.portfolioOrders o1.id) o2.id,
                  positions := listUpdateAt s2.positions i
                    (fun p => { p with order_ids := p.order_ids ++ [o1.id, o2.id] }) }
                (applyNewOrder s3 i no, none)
          | _, _ => ((s, no), none)
      else
        match active.find? (fun o => decide (o.order_type = OrderType.TRAILING_STOP)) with
        | none => (applyNewOrder s i no, none)
        | some tso =>
          match pos.open_price with
          | none =>
            ((s, no), some Err.typeError)
          | some op =>
            if current_price > op then
              let profit_percentage := (current_price - op) / op
              if profit_percentage > 0 then
                match pos.take_profit_percentage with
                | none => ((s, no), some Err.typeError)
                | some tp =>
                  let take_profit_coverage := profit_percentage / tp
                  match pos.trail_percentage with
                  | none => ((s, no), some Err.typeError)
                  | some trp =>
                    let new_trail_percentage :=
                      max (trp * (1 - min take_profit_coverage 1)) (1 / 1000)
                    let new_stop_price := current_price * (1 - new_trail_percentage)
                    match tso.stop with
                    | none => ((s, no), some Err.typeError)
                    | some st =>
                      if new_stop_price > st then
                        let s1 := cancelOrder s tso.id
                        match createOrder s1 pos.symbol OrderType.TRAILING_STOP OrderSide.SELL
                            pos.quantity none (some new_trail_percentage) none none none with
                        | Except.error e => ((s1, no), some e)
                        | Except.ok (o, s2) => (applyNewOrder s2 i (some o), none)
                      else (applyNewOrder s i no, none)
              else (applyNewOrder s i no, none)
            else (applyNewOrder s i no, none)

/-- The maintenance loop over position indices. -/
def maintLoop : List ℕ → Sys → Option Order → Sys × Option Err
  | [], s, _ => (s, none)
  | i :: rest, s, no =>
    match maintenanceStep s i no with
    | ((s', _), some e) => (s', some e)
    | ((s', no'), none) => maintLoop rest s' no'

/-- `Portfolio._update_orders`: the reconciliation loop followed by the
protective-order maintenance loop. -/
def updateOrders (s : Sys) : Sys × Option Err :=
  match updateOrdersLoop s s.portfolioOrders with
  | (s', some e) => (s', some e)
  | (s', none) => maintLoop (List.range s'.positions.length) s' none

/-- The holdings loop of `Portfolio.get_valuation`: with an explicit price
map every held symbol must be priced (`ValueError` otherwise); without,
the broker's live (default-0) price is used. -/
def getValuationLoop (s : Sys) (prices : Option (List (String × ℚ))) :
    List (String × ℚ) → ℚ → Except Err ℚ
  | [], acc => Except.ok acc
  | (sym, qty) :: rest, acc =>
    match prices with
    | some pm =>
      match alookup pm sym with
      | none => Except.error (Err.valueError "Price for symbol not provided in prices dictionary")
      | some price => getValuationLoop s prices rest (acc + qty * price)
    | none => getValuationLoop s prices rest (acc + qty * getPrice s sym)

/-- `Portfolio.get_valuation(time, prices)`: `ValueError` unless both or
neither of `time`/`prices` are supplied. -/
def getValuation (s : Sys) (time : Option ℤ) (prices : Option (List (String × ℚ))) :
    Except Err ℚ :=
  if (time.isSome) ≠ (prices.isSome) then
    Except.error (Err.valueError "Both time and prices must be provided together, or neither should be provided")
  else getValuationLoop s prices s.asset_holdings s.cash

/-- `Portfolio.update(time, prices)`: reconcile orders, then append a
valuation-history record (the autosave file write leaves the state alone).
An exception keeps the mutations already made. -/
def portfolioUpdate (s : Sys) (t : ℤ) (prices : Option (List (String × ℚ))) :
    Sys × Option Err :=
  match updateOrders s with
  | (s', some e) => (s', some e)
  | (s', none) =>
    match getValuation s' (some t) prices with
    | Except.error e => (s', some e)
    | Except.ok v =>
      ({ s' with valuation_history := s'.valuation_history ++
          [{ timestamp := t, valuation := v, prices := prices,
             asset_holdings := s'.asset_holdings }] }, none)

/-- `Portfolio.is_long`. -/
def isLong (s : Sys) (symbol : String) : Bool :=
  match alookup s.asset_holdings symbol with
  | some q => decide (q > 0)
  | none => false

/-- `Portfolio.open_long(symbol, cash_percentage, ...)`: validate, no-op if
already long, submit a MARKET BUY sized by `cash * cash_percentage`, record
the new position, and reconcile immediately. -/
def openLong (s : Sys) (symbol : String) (cash_percentage : ℚ)
    (trail_percentage take_profit_percentage stop_percentage : Option ℚ) :
    Sys × Option Err :=
  if cash_percentage ≤ 0 ∨ cash_percentage > 1 then
    (s, some (Err.valueError "Percentage must be between 0 and 1"))
  else if trail_percentage ≠ none ∧ stop_percentage ≠ none then
    (s, some (Err.valueError "Trail percentage cannot be used with stop loss"))
  else if stop_percentage ≠ none ∧ take_profit_percentage = none then
    (s, some (Err.valueError "Stop percentage always requires a take profit percentage"))
  else if isLong s symbol then (s, none)
  else
    let amount_to_invest := s.cash * cash_percentage
    match createOrder s symbol OrderType.MARKET OrderSide.BUY
        none (some amount_to_invest) none none none none with
    | Except.error e => (s, some e)
    | Except.ok (o, s1) =>
      let s2 := { s1 with portfolioOrders := addId s1.portfolioOrders o.id }
      let pos := { Position.make symbol PositionSide.LONG amount_to_invest
                     trail_percentage take_profit_percentage stop_percentage with
                   order_ids := [o.id] }
      updateOrders { s2 with positions := s2.positions ++ [pos] }

/-! ## Persistence: `Portfolio.save` / `Portfolio.from_file`

`save` writes the state as JSON with `default=str`, so a `datetime` becomes
its string rendering while `None` stays `null`; `from_file` rebuilds the
dataclasses verbatim from the decoded dicts and rebuilds each position via
`Position(**{**pos_dict, "side": PositionSide(pos_dict["side"])})`. -/

/-- A decoded JSON value as Python sees it after a save/load round trip
(only the shapes the snapshot can contain). -/
inductive PyVal
  | vnone
  | vstr (s : String)
  | vnum (q : ℚ)
  | vbool (b : Bool)
  | vidlist (xs : List ℕ)
deriving DecidableEq

/-- `keyError` for dict access misses during load. -/
inductive LoadErr
  | keyError
  | fromErr (e : Err)
deriving DecidableEq

/-- `str(PositionSide.X)` (the enum's `__str__` returns the value). -/
def sideStr : PositionSide → String
  | PositionSide.LONG => "long"
  | PositionSide.SHORT => "short"

/-- `PositionSide(value)`: `ValueError` unless the string is a member value. -/
def parsePositionSide (v : PyVal) : Except Err PositionSide :=
  match v with
  | PyVal.vstr "long" => Except.ok PositionSide.LONG
  | PyVal.vstr "short" => Except.ok PositionSide.SHORT
  | _ => Except.error (Err.valueError "not a valid PositionSide")

/-- An optional number as serialized (`None` → `null`). -/
def pyOptNum : Option ℚ → PyVal
  | none => PyVal.vnone
  | some q => PyVal.vnum q

/-- An optional datetime as serialized: `json.dump(default=str)` renders a
`datetime` as a string, while `None` stays `null`. -/
def pyTs : Option ℤ → PyVal
  | none => PyVal.vnone
  | some t => PyVal.vstr (toString t)

/-- A `Trade` as stored in the snapshot (`trade.__dict__`, timestamp
stringified by `default=str`); `Trade(**d)` re-creates it verbatim, so this
is also the loaded shape. -/
structure SavedTrade where
  id : ℕ
  order_id : ℕ
  symbol : String
  order_type : OrderType
  order_side : OrderSide
  price : ℚ
  quantity : ℚ
  timestamp : PyVal
  transaction_costs : ℚ
deriving DecidableEq

/-- An `Order` as stored in the snapshot (and, verbatim, as loaded). -/
structure SavedOrder where
  id : ℕ
  symbol : String
  order_type : OrderType
  order_side : OrderSide
  quantity : ℚ
  trail : Option ℚ
  limit : Option ℚ
  stop : Option ℚ
  status : OrderStatus
  timestamp : PyVal
  trades : List SavedTrade
deriving DecidableEq

/-- A valuation-history record as stored (timestamp stringified). -/
structure SavedValRec where
  timestamp : PyVal
  valuation : ℚ
  prices : Option (List (String × ℚ))
  asset_holdings : List (String × ℚ)
deriving DecidableEq

def serializeTrade (tr : Trade) : SavedTrade :=
  { id := tr.id, order_id := tr.order_id, symbol := tr.symbol,
    order_type := tr.order_type, order_side := tr.order_side,
    price := tr.price, quantity := tr.quantity,
    timestamp := pyTs tr.timestamp, transaction_costs := tr.transaction_costs }

def serializeOrder (o : Order) : SavedOrder :=
  { id := o.id, symbol := o.symbol, order_type := o.order_type,
    order_side := o.order_side, quantity := o.quantity, trail := o.trail,
    limit := o.limit, stop := o.stop, status := o.status,
    timestamp := pyTs o.timestamp, trades := o.trades.map serializeTrade }

/-- `{**pos.__dict__, "side": str(pos.side)}`: all eleven attributes, in
`__init__` assignment order. -/
def serializePosition (p : Position) : List (String × PyVal) :=
  [("symbol", PyVal.vstr p.symbol),
   ("side", PyVal.vstr (sideStr p.side)),
   ("amount_invested", PyVal.vnum p.amount_invested),
   ("trail_percentage", pyOptNum p.trail_percentage),
   ("take_profit_percentage", pyOptNum p.take_profit_percentage),
   ("stop_percentage", pyOptNum p.stop_percentage),
   ("is_open", PyVal.vbool p.is_open),
   ("open_price", pyOptNum p.open_price),
   ("close_price", pyOptNum p.close_price),
   ("quantity", pyOptNum p.quantity),
   ("order_ids", PyVal.vidlist p.order_ids)]

def serializeValRec (v : ValRec) : SavedValRec :=
  { timestamp := pyTs (some v.timestamp), valuation := v.valuation,
    prices := v.prices, asset_holdings := v.asset_holdings }

/-- The complete snapshot written by `Portfolio.save`. -/
structure SavedState where
  cash : ℚ
  asset_holdings : List (String × ℚ)
  orders : List (ℕ × SavedOrder)
  processed_trades : List ℕ
  positions : List (List (String × PyVal))
  valuation_history : List SavedValRec
  uuid : String
  autosave : Bool
deriving DecidableEq

/-- `Portfolio.save` (the file write itself is I/O; the snapshot content is
what matters).  The portfolio's cached orders are serialized from the
broker-owned objects they alias. -/
def savePortfolio (s : Sys) (uuid : String) : SavedState :=
  { cash := s.cash,
    asset_holdings := s.asset_holdings,
    orders := s.portfolioOrders.filterMap (fun oid =>
      (alookup s.brokerOrders oid).map (fun o => (oid, serializeOrder o))),
    processed_trades := s.processed_trades,
    positions := s.positions.map serializePosition,
    valuation_history := s.valuation_history.map serializeValRec,
    uuid := uuid, autosave := s.autosave }

/-- The `Position.__init__` parameter names. -/
def positionInitParams : List String :=
  ["symbol", "side", "amount_invested", "trail_percentage",
   "take_profit_percentage", "stop_percentage"]

/-- A kwarg value bound to an `Option ℚ` parameter (absent key → default
`None`). -/
def kwOptNum (v : Option PyVal) : Option ℚ :=
  match v with
  | some (PyVal.vnum q) => some q
  | _ => none

/-- `Position(**{**pos_dict, "side": PositionSide(pos_dict["side"])})`:
the side value is converted first (`KeyError` if absent, `ValueError` if
not a member), then the call raises `TypeError` if any keyword is not an
`__init__` parameter (this is what happens to every saved position, whose
dict also carries `is_open`, `open_price`, `close_price`, `quantity` and
`order_ids`), or if a required parameter is missing or ill-typed. -/
def positionFromKwargs (kw : List (String × PyVal)) : Except LoadErr Position :=
  match alookup kw "side" with
  | none => Except.error LoadErr.keyError
  | some sv =>
    match parsePositionSide sv with
    | Except.error e => Except.error (LoadErr.fromErr e)
    | Except.ok side =>
      if kw.any (fun kvp => decide (kvp.1 ∉ positionInitParams)) then
        Except.error (LoadErr.fromErr Err.typeError)
      else
        match alookup kw "symbol", alookup kw "amount_invested" with
        | some (PyVal.vstr sym), some (PyVal.vnum amt) =>
          Except.ok (Position.make sym side amt
            (kwOptNum (alookup kw "trail_percentage"))
            (kwOptNum (alookup kw "take_profit_percentage"))
            (kwOptNum (alookup kw "stop_percentage")))
        | _, _ => Except.error (LoadErr.fromErr Err.typeError)

/-- Sequence `Except` over a list (first error propagates). -/
def listMapE {α β : Type} (f : α → Except LoadErr β) : List α → Except LoadErr (List β)
  | [] => Except.ok []
  | a :: rest =>
    match f a with
    | Except.error e => Except.error e
    | Except.ok b =>
      match listMapE f rest with
      | Except.error e => Except.error e
      | Except.ok bs => Except.ok (b :: bs)

/-- The portfolio reconstructed by `Portfolio.from_file` (orders and
valuation history come back verbatim from the decoded dicts — with their
stringified timestamps — and positions via `Position(**...)`). -/
structure LoadedPortfolio where
  cash : ℚ
  asset_holdings : List (String × ℚ)
  orders : List (ℕ × SavedOrder)
  processed_trades : List ℕ
  positions : List Position
  valuation_history : List SavedValRec
  uuid : String
  autosave : Bool
deriving DecidableEq

/-- `Portfolio.from_file`: dataclass reconstruction of orders/trades is
verbatim; each position dict is passed through `Position(**...)`, whose
error (if any) aborts the load. -/
def fromFileState (st : SavedState) : Except LoadErr LoadedPortfolio :=
  match listMapE positionFromKwargs st.positions with
  | Except.error e => Except.error e
  | Except.ok ps =>
    Except.ok { cash := st.cash, asset_holdings := st.asset_holdings,
                orders := st.orders, processed_trades := st.processed_trades,
                positions := ps, valuation_history := st.valuation_history,
                uuid := st.uuid, autosave := st.autosave }

/-! ## Concrete scenario states

The spec's §8 scenario: a `BacktestBroker(transaction_cost=0.004)` with
default `trailing_stop_penalty_relief=0.75`, a Portfolio with cash 1000,
symbol `X` ticking at 100, then `open_long("X", 0.25, trail_percentage=0.01)`,
then ticks at 110 and 108.9. -/

/-- A fresh broker+portfolio system. -/
def initSys (tc relief cash : ℚ) : Sys :=
  { brokerOrders := [], current_prices := [], current_timestamp := none,
    transaction_cost := tc, trailing_stop_penalty_relief := relief,
    nextId := 0, cash := cash, asset_holdings := [], portfolioOrders := [],
    processed_trades := [], positions := [], valuation_history := [],
    autosave := true }

/-- Scenario start: cost rate 0.004, penalty relief 0.75, cash 1000. -/
def scn0 : Sys := initSys (4 / 1000) (3 / 4) 1000

/-- After the first tick `(t=0, X=100)`. -/
def scn1 : Sys := (brokerUpdate scn0 0 [("X", 100)]).1

/-- After `open_long("X", 0.25, trail_percentage=0.01)`. -/
def scn2 : Sys := (openLong scn1 "X" (1 / 4) (some (1 / 100)) none none).1

/-- After the second broker tick `(t=1, X=110)`. -/
def scn3 : Sys := (brokerUpdate scn2 1 [("X", 110)]).1

/-- `scn1`, explicitly. -/
def scn1val : Sys :=
  { brokerOrders := [], current_prices := [("X", 100)],
    current_timestamp := some 0, transaction_cost := 4 / 1000,
    trailing_stop_penalty_relief := 3 / 4, nextId := 0, cash := 1000,
    asset_holdings := [], portfolioOrders := [], processed_trades := [],
    positions := [], valuation_history := [], autosave := true }

/-- The fill of the scenario's MARKET BUY: quantity `(250·(1−0.004))/100 = 2.49`,
costs `100·2.49·0.004 = 0.996`. -/
def mktTrade : Trade :=
  { id := 1, order_id := 0, symbol := "X", order_type := OrderType.MARKET,
    order_side := OrderSide.BUY, price := 100, quantity := 249 / 100,
    timestamp := some 0, transaction_costs := 249 / 250 }

/-- The scenario's MARKET BUY order after its synchronous fill. -/
def mktOrder : Order :=
  { id := 0, symbol := "X", order_type := OrderType.MARKET,
    order_side := OrderSide.BUY, quantity := 249 / 100, trail := none,
    limit := none, stop := none, status := OrderStatus.FILLED,
    timestamp := some 0, trades := [mktTrade] }

/-- The protective TRAILING_STOP SELL submitted by reconciliation:
stop `100·(1−0.01) = 99`, trail amount `0.01·100 = 1`. -/
def tsOrder : Order :=
  { id := 2, symbol := "X", order_type := OrderType.TRAILING_STOP,
    order_side := OrderSide.SELL, quantity := 249 / 100, trail := some 1,
    limit := none, stop := some 99, status := OrderStatus.PENDING,
    timestamp := some 0, trades := [] }

/-- The scenario's position once the BUY trade is applied:
`open_price = 250/2.49 = 25000/249`. -/
def scnPos : Position :=
  { symbol := "X", side := PositionSide.LONG, amount_invested := 250,
    trail_percentage := some (1 / 100), take_profit_percentage := none,
    stop_percentage := none, is_open := true, open_price := some (25000 / 249),
    close_price := none, quantity := some (249 / 100), order_ids := [0, 2] }

/-- `scn2`, explicitly: cash `1000 − (249 + 0.996) = 750.004`. -/
def scn2val : Sys :=
  { brokerOrders := [(0, mktOrder), (2, tsOrder)],
    current_prices := [("X", 100)], current_timestamp := some 0,
    transaction_cost := 4 / 1000, trailing_stop_penalty_relief := 3 / 4,
    nextId := 3, cash := 187501 / 250, asset_holdings := [("X", 249 / 100)],
    portfolioOrders := [0, 2], processed_trades := [1],
    positions := [scnPos], valuation_history := [], autosave := true }

/-- The trailing stop after the broker's 110 tick: `110 − 1 = 109`. -/
def tsOrderRatcheted : Order := { tsOrder with stop := some 109 }

/-- `scn3`, explicitly. -/
def scn3val : Sys :=
  { scn2val with brokerOrders := [(0, mktOrder), (2, tsOrderRatcheted)],
                 current_prices := [("X", 110)], current_timestamp := some 1 }

theorem scn1_eq : scn1 = scn1val := by
  norm_num [scn1, scn0, initSys, brokerUpdate, brokerOrdersLoop, scn1val]

theorem scn2_eq : scn2 = scn2val := by
  rw [scn2, scn1_eq]
  norm_num [openLong, isLong, alookup, createOrder, getPrice, executeOrderP, mkId,
    dictInsert, addId, Position.make, updateOrders, updateOrdersLoop, processOrder,
    processTradeStep, Position.setQuantity, updateFirstOpenPos, portfolioOrderVals,
    maintenanceStep, maintLoop, applyNewOrder, listUpdateAt, List.range_succ,
    Option.some_ne_none, Option.isSome, scn1val, scn2val, mktOrder, mktTrade, tsOrder, scnPos]
  simp

theorem scn3_eq : scn3 = scn3val := by
  rw [scn3, scn2_eq]
  norm_num [brokerUpdate, brokerOrdersLoop, brokerUpdateStep, alookup,
    Option.some_ne_none, scn2val, scn3val, mktOrder, mktTrade, tsOrder, tsOrderRatcheted, scnPos]

/-- C5: starting from the state after `open_long(X, 0.25, trail_percentage=0.01)`
at price 100, when the price rises to 110 the broker-side ratchet moves the
trailing stop to `110 − 1 = 109` (not ≈ 108.9), and `Portfolio.update` at
that tick does NOT complete: its maintenance pass computes
`profit_percentage / position.take_profit_percentage` with
`take_profit_percentage = None` and raises `TypeError`, leaving the state as
it was after reconciliation.  This refutes the claim's
"Portfolio.update completing without error". -/
theorem trailOnly_update_raises_typeError :
    alookup scn3.brokerOrders 2 = some tsOrderRatcheted ∧
    portfolioUpdate scn3 1 (some [("X", 110)]) = (scn3val, some Err.typeError) := by
  constructor
  · rw [scn3_eq]
    norm_num [scn3val, alookup]
  · rw [scn3_eq]
    simp [portfolioUpdate, updateOrders, updateOrdersLoop, processOrder,
      processTradeStep, maintLoop, maintenanceStep, portfolioOrderVals, alookup,
      getPrice, List.range_succ, applyNewOrder, scn3val, scn2val, mktOrder,
      mktTrade, tsOrder, tsOrderRatcheted, scnPos, List.filter, List.filterMap,
      List.find?, Option.some_ne_none]
    try norm_num
    try simp

/-- C8 (counterexample): in the §8 scenario the MARKET BUY's quantity is
exactly `(250·(1−0.004))/100 = 2.49`, which is not within `0.001` of the
claimed `≈ 2.4875` (the claim's own formula yields 2.49). -/
theorem open_long_quantity_not_2_4875 :
    (alookup scn2.brokerOrders 0).map Order.quantity = some (249 / 100) ∧
    ¬ |(249 : ℚ) / 100 - 24875 / 10000| ≤ 1 / 1000 := by
  constructor
  · rw [scn2_eq]
    norm_num [scn2val, alookup, mktOrder]
  · rw [abs_le]
    norm_num

/-- C8 (amended): with cash 1000, cost rate 0.004 and X at 100,
`open_long(X, 0.25, trail_percentage=0.01)` leaves exactly one FILLED MARKET
BUY of quantity exactly 2.49, one PENDING TRAILING_STOP SELL with stop
exactly 99 (and no other order), and cash exactly 750.004. -/
theorem open_long_scenario_exact :
    (portfolioOrderVals scn2).map
        (fun o => (o.order_type, o.order_side, o.status, o.quantity, o.stop)) =
      [(OrderType.MARKET, OrderSide.BUY, OrderStatus.FILLED, 249 / 100, none),
       (OrderType.TRAILING_STOP, OrderSide.SELL, OrderStatus.PENDING, 249 / 100, some 99)] ∧
    scn2.cash = 187501 / 250 := by
  rw [scn2_eq]
  constructor
  · simp [portfolioOrderVals, alookup, scn2val, mktOrder, tsOrder, List.filterMap]
  · norm_num [scn2val]

/-- C2: `save()` followed by `from_file` does not round-trip: every saved
position dict carries the full `__dict__` (`is_open`, `open_price`,
`close_price`, `quantity`, `order_ids` included), and `Position.__init__`
accepts none of those keywords, so `Position(**pos_dict)` raises
`TypeError` — here shown on the state reached after one `open_long`. -/
theorem save_then_load_raises_typeError :
    fromFileState (savePortfolio scn2 "u1") =
      Except.error (LoadErr.fromErr Err.typeError) := by
  rw [scn2_eq]
  simp [savePortfolio, fromFileState, listMapE, positionFromKwargs,
    serializePosition, parsePositionSide, positionInitParams, alookup,
    scn2val, scnPos, mktOrder, tsOrder, serializeOrder, serializeTrade,
    pyTs, pyOptNum, sideStr, List.any, List.filterMap]

/-- C6 (counterexample): `cancel_order` has no PENDING guard — applied to
the already-FILLED MARKET order of the scenario it mutates the order
(status becomes CANCELLED), so a cancel on a FILLED order is not a no-op. -/
theorem cancel_filled_order_changes_it :
    alookup (cancelOrder scn2 0).brokerOrders 0 ≠ alookup scn2.brokerOrders 0 := by
  rw [scn2_eq]
  simp [cancelOrder, alookup, scn2val, mktOrder, tsOrder]

/-- A pending SELL trailing stop at stop level 100 on a broker configured
with `trailing_stop_penalty_relief = 0`. -/
def c4Order : Order :=
  { id := 7, symbol := "X", order_type := OrderType.TRAILING_STOP,
    order_side := OrderSide.SELL, quantity := 1, trail := some 1, limit := none,
    stop := some 100, status := OrderStatus.PENDING, timestamp := none, trades := [] }

def c4s : Sys := { initSys 0 0 0 with brokerOrders := [(7, c4Order)], nextId := 8 }

/-- C4 (counterexample): with `penalty_relief = 0`, a SELL trailing stop at
stop 100 triggered by a tick at 90 fills at the CURRENT price 90, not at
the stop level 100 — the claim's reading of the interpolation (0 = fill at
stop) is the reverse of the code's. -/
theorem relief_zero_fills_at_current_price :
    (alookup (brokerUpdate c4s 5 [("X", 90)]).1.brokerOrders 7).map
        (fun o => o.trades.map Trade.price) = some [90] ∧ (90 : ℚ) ≠ 100 := by
  constructor
  · norm_num [brokerUpdate, brokerOrdersLoop, brokerUpdateStep, executeOrderP,
      alookup, initSys, c4s, c4Order, mkId]
  · norm_num

/-- C3 (counterexample): under monotonically favorable (rising) prices
100 → 105 → 110 across two consecutive `BacktestBroker.update` calls, the
scenario's PENDING SELL trailing stop rises 99 → 104 → 109; it is not
non-increasing as the claim states for SELL orders. -/
theorem sell_trailing_stop_rises_on_favorable_ticks :
    (alookup (runTicks scn2 [(1, [("X", 105)]), (2, [("X", 110)])]).1.brokerOrders 2).map
        Order.stop = some (some 109) ∧ ¬ ((109 : ℚ) ≤ 99) := by
  constructor
  · rw [scn2_eq]
    norm_num [runTicks, brokerUpdate, brokerOrdersLoop, brokerUpdateStep,
      executeOrderP, alookup, scn2val, mktOrder, mktTrade, tsOrder, scnPos,
      Option.some_ne_none]
  · norm_num

/-! ## Association-list lemmas -/

theorem alookup_map_patch {α : Type} (g : α → α) (oid : ℕ) (l : List (ℕ × α)) (k : ℕ) :
    alookup (l.map (fun kv => if kv.1 = oid then (kv.1, g kv.2) else kv)) k =
      (alookup l k).map (fun v => if k = oid then g v else v) := by
  induction l with
  | nil => simp [alookup]
  | cons kv rest ih =>
    obtain ⟨k', v⟩ := kv
    dsimp only [List.map_cons]
    by_cases h1 : k' = oid
    · rw [if_pos (show (k', v).1 = oid from h1)]
      subst h1
      by_cases h2 : k' = k
      · subst h2
        simp [alookup]
      · simp [alookup, h2, ih]
    · rw [if_neg (show ¬ (k', v).1 = oid from h1)]
      by_cases h2 : k' = k
      · subst h2
        simp [alookup, h1]
      · simp [alookup, h2, ih]

theorem map_patch_of_lookup_none {α : Type} (g : α → α) (oid : ℕ) (l : List (ℕ × α))
    (h : alookup l oid = none) :
    l.map (fun kv => if kv.1 = oid then (kv.1, g kv.2) else kv) = l := by
  induction l with
  | nil => simp
  | cons kv rest ih =>
    obtain ⟨k', v⟩ := kv
    by_cases hk : k' = oid
    · subst hk
      rw [alookup, if_pos rfl] at h
      exact absurd h (by simp)
    · rw [alookup, if_neg hk] at h
      dsimp only [List.map_cons]
      rw [if_neg (show ¬ (k', v).1 = oid from hk), ih h]

theorem alookup_cancelOrder (s : Sys) (oid k : ℕ) :
    alookup (cancelOrder s oid).brokerOrders k =
      (alookup s.brokerOrders k).map
        (fun o => if k = oid then { o with status := OrderStatus.CANCELLED } else o) := by
  simp only [cancelOrder]
  exact alookup_map_patch (fun o => { o with status := OrderStatus.CANCELLED })
    oid s.brokerOrders k

theorem alookup_editOrder (s : Sys) (oid k : ℕ) (v : ℚ) :
    alookup (editOrder s oid v).brokerOrders k =
      (alookup s.brokerOrders k).map
        (fun o => if k = oid then { o with stop := some v } else o) := by
  simp only [editOrder]
  exact alookup_map_patch (fun o => { o with stop := some v }) oid s.brokerOrders k

theorem alookup_dictInsert {α : Type} (l : List (ℕ × α)) (k k' : ℕ) (v : α) :
    alookup (dictInsert l k v) k' = if k' = k then some v else alookup l k' := by
  induction l with
  | nil =>
    by_cases h : k' = k
    · subst h
      simp [dictInsert, alookup]
    · simp [dictInsert, alookup, h, Ne.symm h]
  | cons kv rest ih =>
    obtain ⟨k0, v0⟩ := kv
    by_cases h0 : k0 = k
    · subst h0
      by_cases h1 : k' = k0
      · subst h1
        simp [dictInsert, alookup]
      · simp [dictInsert, alookup, h1, Ne.symm h1]
    · by_cases h2 : k0 = k'
      · subst h2
        have hne : ¬ k0 = k := h0
        simp [dictInsert, alookup, h0, Ne.symm h0, hne]
      · simp [dictInsert, alookup, h0, h2, ih]

/-- C6 (amended): `edit_order(id, stop)` and `cancel_order(id)` mutate any
KNOWN order regardless of its status — cancel sets the status to CANCELLED
(even for a FILLED order) and edit overwrites the stop, leaving the trades
and every other order untouched — while an unknown id is a silent no-op for
both (no `NotFoundError` is raised). -/
theorem edit_cancel_mutate_any_known_order (s : Sys) (oid : ℕ) (v : ℚ) :
    alookup (cancelOrder s oid).brokerOrders oid =
      (alookup s.brokerOrders oid).map (fun o => { o with status := OrderStatus.CANCELLED }) ∧
    alookup (editOrder s oid v).brokerOrders oid =
      (alookup s.brokerOrders oid).map (fun o => { o with stop := some v }) ∧
    (∀ k, k ≠ oid →
      alookup (cancelOrder s oid).brokerOrders k = alookup s.brokerOrders k ∧
      alookup (editOrder s oid v).brokerOrders k = alookup s.brokerOrders k) ∧
    (alookup s.brokerOrders oid = none → cancelOrder s oid = s ∧ editOrder s oid v = s) := by
  refine ⟨?_, ?_, ?_, ?_⟩
  · rw [alookup_cancelOrder]
    simp
  · rw [alookup_editOrder]
    simp
  · intro k hk
    rw [alookup_cancelOrder, alookup_editOrder]
    simp [hk]
  · intro h
    constructor
    · have hm : List.map (fun kv =>
          if kv.1 = oid then (kv.1, ({ kv.2 with status := OrderStatus.CANCELLED } : Order))
          else kv) s.brokerOrders = s.brokerOrders :=
        map_patch_of_lookup_none (fun o => { o with status := OrderStatus.CANCELLED })
          oid s.brokerOrders h
      simp only [cancelOrder]
      rw [hm]
    · have hm : List.map (fun kv =>
          if kv.1 = oid then (kv.1, ({ kv.2 with stop := some v } : Order))
          else kv) s.brokerOrders = s.brokerOrders :=
        map_patch_of_lookup_none (fun o => { o with stop := some v })
          oid s.brokerOrders h
      simp only [editOrder]
      rw [hm]

/-- Witness for the amended C6 at the scenario state: cancelling the
already-PENDING trailing stop marks it CANCELLED, editing sets its stop,
the FILLED MARKET order at another key is untouched, and an unknown id 99
is a no-op. -/
theorem edit_cancel_witness :
    alookup (cancelOrder scn2 2).brokerOrders 2 =
      some { tsOrder with status := OrderStatus.CANCELLED } ∧
    alookup (editOrder scn2 2 50).brokerOrders 2 = some { tsOrder with stop := some 50 } ∧
    alookup (cancelOrder scn2 2).brokerOrders 0 = alookup scn2.brokerOrders 0 ∧
    cancelOrder scn2 99 = scn2 := by
  have h := edit_cancel_mutate_any_known_order scn2 2 50
  have hl : alookup scn2.brokerOrders 2 = some tsOrder := by
    rw [scn2_eq]; simp [scn2val, alookup]
  have hl99 : alookup scn2.brokerOrders 99 = none := by
    rw [scn2_eq]; simp [scn2val, alookup]
  refine ⟨?_, ?_, ?_, ?_⟩
  · rw [h.1, hl]; rfl
  · rw [h.2.1, hl]; rfl
  · exact (h.2.2.1 0 (by decide)).1
  · exact ((edit_cancel_mutate_any_known_order scn2 99 50).2.2.2 hl99).1

/-- C10: `get_price` returns 0 (raising nothing) for a symbol absent from
the current price map, so `create_order` on an unknown symbol — once the
quantity/cash and trail/take-profit validations pass — always fails with
the invalid-price `ValueError`, never a not-found error. -/
theorem unknown_symbol_price_zero_create_invalid (s : Sys) (sym : String)
    (h : alookup s.current_prices sym = none)
    (ot : OrderType) (osd : OrderSide) (q c trl li st tp : Option ℚ)
    (hqc : (q = none ∧ c ≠ none) ∨ (q ≠ none ∧ c = none))
    (hq : ∀ x, q = some x → 0 < x)
    (hc : ∀ x, c = some x → 0 < x)
    (htr : ¬(trl ≠ none ∧ tp ≠ none)) :
    getPrice s sym = 0 ∧
    createOrder s sym ot osd q c trl li st tp =
      Except.error (Err.valueError "Invalid price") := by
  have hp : getPrice s sym = 0 := by simp [getPrice, h]
  refine ⟨hp, ?_⟩
  rcases hqc with ⟨hq0, hc0⟩ | ⟨hq0, hc0⟩
  · subst hq0
    cases c with
    | none => exact absurd rfl hc0
    | some cv =>
      have hcv : ¬ cv ≤ 0 := not_le.mpr (hc cv rfl)
      simp [createOrder, hp, htr, hcv]
  · subst hc0
    cases q with
    | none => exact absurd rfl hq0
    | some qv =>
      have hqv : ¬ qv ≤ 0 := not_le.mpr (hq qv rfl)
      simp [createOrder, hp, htr, hqv]

/-- Witness for C10: an unknown symbol "Z" on a fresh broker, with a valid
quantity argument. -/
theorem unknown_symbol_witness :
    alookup (initSys 0 0 0).current_prices "Z" = none ∧
    getPrice (initSys 0 0 0) "Z" = 0 ∧
    createOrder (initSys 0 0 0) "Z" OrderType.MARKET OrderSide.BUY
        (some 1) none none none none none =
      Except.error (Err.valueError "Invalid price") := by
  refine ⟨by simp [initSys, alookup], ?_⟩
  exact unknown_symbol_price_zero_create_invalid (initSys 0 0 0) "Z"
    (by simp [initSys, alookup]) OrderType.MARKET OrderSide.BUY
    (some 1) none none none none none
    (Or.inr (by simp))
    (by intro x hx; cases hx; norm_num)
    (by intro x hx; cases hx)
    (by simp)

/-- C9: `Portfolio.update(time)` with `prices` omitted raises the
`ValueError` of `get_valuation` — but only after `_update_orders` has run,
whose mutations (applied trades included) survive in the returned state:
the error path is not atomic. -/
theorem update_without_prices_reconciles_then_raises (s : Sys) (t : ℤ) (s' : Sys)
    (h : updateOrders s = (s', none)) :
    portfolioUpdate s t none =
      (s', some (Err.valueError
        "Both time and prices must be provided together, or neither should be provided")) := by
  simp [portfolioUpdate, h, getValuation]

/-- Witness for C9 on a portfolio holding one unreconciled BUY fill: the
reconciliation applies the trade (cash drops from 1000) and the ValueError
still surfaces; the mutated state is the one returned. -/
theorem update_without_prices_witness :
    updateOrders scn1 = (scn1, none) ∧
    portfolioUpdate scn1 5 none =
      (scn1, some (Err.valueError
        "Both time and prices must be provided together, or neither should be provided")) := by
  have h : updateOrders scn1 = (scn1, none) := by
    rw [scn1_eq]
    simp [updateOrders, updateOrdersLoop, maintLoop, scn1val]
  exact ⟨h, update_without_prices_reconciles_then_raises scn1 5 scn1 h⟩

/-- The trade that `_execute_order` records for a triggered trailing stop:
price `current − (current − stop) · relief`, timestamp backdated 1 second. -/
def trailingFillTrade (tcRate relief : ℚ) (t : ℤ) (n : ℕ) (o : Order) (st cp : ℚ) : Trade :=
  { id := mkId n, order_id := o.id, symbol := o.symbol, order_type := o.order_type,
    order_side := o.order_side, price := cp - (cp - st) * relief, quantity := o.quantity,
    timestamp := some (t - 1),
    transaction_costs := (cp - (cp - st) * relief) * o.quantity * tcRate }

/-- C4 (amended): when a PENDING TRAILING_STOP fills during
`BacktestBroker.update`, the recorded trade price is
`current − (current − stop) · penalty_relief`, the interpolation between
stop level and current price with `penalty_relief = 1` giving a fill
exactly at the stop level and `penalty_relief = 0` a fill exactly at the
current price (the reverse of the claim's reading), and the trade
timestamp is backdated one second. -/
theorem trailing_fill_price_interpolates (tcRate relief : ℚ) (t : ℤ)
    (prices : List (String × ℚ)) (n : ℕ) (o : Order) (st cp : ℚ)
    (hst : o.status = OrderStatus.PENDING)
    (hty : o.order_type = OrderType.TRAILING_STOP)
    (hstop : o.stop = some st)
    (hcp : alookup prices o.symbol = some cp)
    (hfill : (o.order_side = OrderSide.SELL ∧ cp ≤ st) ∨
             (o.order_side = OrderSide.BUY ∧ st ≤ cp)) :
    brokerUpdateStep tcRate relief t prices n o =
      Except.ok ({ o with trades := o.trades ++ [trailingFillTrade tcRate relief t n o st cp],
                          status := OrderStatus.FILLED }, n + 1) ∧
    (relief = 1 → cp - (cp - st) * relief = st) ∧
    (relief = 0 → cp - (cp - st) * relief = cp) := by
  refine ⟨?_, by intro h; subst h; ring, by intro h; subst h; ring⟩
  rcases hfill with ⟨hside, hle⟩ | ⟨hside, hle⟩
  · have hd : cp - st ≤ 0 := sub_nonpos.mpr hle
    simp [brokerUpdateStep, hst, hty, hstop, hcp, hside, hd, executeOrderP, mkId,
      trailingFillTrade]
  · have hd : 0 ≤ cp - st := sub_nonneg.mpr hle
    simp [brokerUpdateStep, hst, hty, hstop, hcp, hside, hd, executeOrderP, mkId,
      trailingFillTrade]

/-! ## Trailing-stop monotonicity (C3) -/

/-- One `BacktestBroker.update` step preserves a trailing stop's type and
side, and moves its stop level only monotonically: up for SELL, down for
BUY (a fill leaves the stop unchanged). -/
theorem brokerUpdateStep_trailing_mono (tcRate relief : ℚ) (t : ℤ)
    (prices : List (String × ℚ)) (n : ℕ) (o o' : Order) (n' : ℕ) (st : ℚ)
    (hty : o.order_type = OrderType.TRAILING_STOP)
    (hstop : o.stop = some st)
    (h : brokerUpdateStep tcRate relief t prices n o = Except.ok (o', n')) :
    o'.order_type = OrderType.TRAILING_STOP ∧ o'.order_side = o.order_side ∧
    ∃ st', o'.stop = some st' ∧
      (o.order_side = OrderSide.SELL → st ≤ st') ∧
      (o.order_side = OrderSide.BUY → st' ≤ st) := by
  by_cases hs : o.status ≠ OrderStatus.PENDING
  · simp only [brokerUpdateStep, if_pos hs] at h
    injection h with h2
    injection h2 with ho hn
    subst ho
    exact ⟨hty, rfl, st, hstop, fun _ => le_refl st, fun _ => le_refl st⟩
  · cases hcp : alookup prices o.symbol with
    | none =>
      simp only [brokerUpdateStep, if_neg hs, hcp] at h
      injection h with h2
      injection h2 with ho hn
      subst ho
      exact ⟨hty, rfl, st, hstop, fun _ => le_refl st, fun _ => le_refl st⟩
    | some cp =>
      cases hside : o.order_side with
      | BUY =>
        by_cases hpd : cp - st ≥ 0
        · simp only [brokerUpdateStep, if_neg hs, hcp, hty, hstop, hside, if_pos hpd] at h
          injection h with h2
          have ho : (executeOrderP tcRate (some t) cp n o (some (t - 1))
              (some (cp - (cp - st) * relief))).1 = o' := congrArg Prod.fst h2
          subst ho
          exact ⟨by simp [executeOrderP, hty], by simp [executeOrderP, hside], st,
            by simp [executeOrderP, hstop], fun _ => le_refl st, fun _ => le_refl st⟩
        · simp only [brokerUpdateStep, if_neg hs, hcp, hty, hstop, hside, if_neg hpd] at h
          cases htr : o.trail with
          | none => simp [htr] at h
          | some tra =>
            simp only [htr] at h
            by_cases hlt : cp + tra < st
            · rw [if_pos hlt] at h
              injection h with h2
              injection h2 with ho hn
              subst ho
              exact ⟨rfl, rfl, cp + tra, by simp, fun hsell => by simp at hsell,
                fun _ => le_of_lt hlt⟩
            · rw [if_neg hlt] at h
              injection h with h2
              injection h2 with ho hn
              subst ho
              exact ⟨hty, hside, st, hstop, fun _ => le_refl st, fun _ => le_refl st⟩
      | SELL =>
        by_cases hpd : cp - st ≤ 0
        · simp only [brokerUpdateStep, if_neg hs, hcp, hty, hstop, hside, if_pos hpd] at h
          injection h with h2
          have ho : (executeOrderP tcRate (some t) cp n o (some (t - 1))
              (some (cp - (cp - st) * relief))).1 = o' := congrArg Prod.fst h2
          subst ho
          exact ⟨by simp [executeOrderP, hty], by simp [executeOrderP, hside], st,
            by simp [executeOrderP, hstop], fun _ => le_refl st, fun _ => le_refl st⟩
        · simp only [brokerUpdateStep, if_neg hs, hcp, hty, hstop, hside, if_neg hpd] at h
          cases htr : o.trail with
          | none => simp [htr] at h
          | some tra =>
            simp only [htr] at h
            by_cases hgt : cp - tra > st
            · rw [if_pos hgt] at h
              injection h with h2
              injection h2 with ho hn
              subst ho
              exact ⟨rfl, rfl, cp - tra, by simp, fun _ => le_of_lt hgt,
                fun hbuy => by simp at hbuy⟩
            · rw [if_neg hgt] at h
              injection h with h2
              injection h2 with ho hn
              subst ho
              exact ⟨hty, hside, st, hstop, fun _ => le_refl st, fun _ => le_refl st⟩

/-- The broker's order loop rewrites each held order in place: a key that
was present is still present afterwards, and its order is either unchanged
or the result of one successful `brokerUpdateStep`. -/
theorem brokerOrdersLoop_lookup (tcRate relief : ℚ) (t : ℤ) (prices : List (String × ℚ)) :
    ∀ (l : List (ℕ × Order)) (n k : ℕ) (o : Order), alookup l k = some o →
      ∃ o₁, alookup (brokerOrdersLoop tcRate relief t prices l n).1 k = some o₁ ∧
        (o₁ = o ∨ ∃ n0 n1, brokerUpdateStep tcRate relief t prices n0 o = Except.ok (o₁, n1)) := by
  intro l
  induction l with
  | nil => intro n k o hlk; simp [alookup] at hlk
  | cons kv rest ih =>
    intro n k o hlk
    obtain ⟨k0, o0⟩ := kv
    by_cases hk : k0 = k
    · subst hk
      rw [alookup, if_pos rfl] at hlk
      obtain rfl : o0 = o := by simpa using hlk
      simp only [brokerOrdersLoop]
      cases hstep : brokerUpdateStep tcRate relief t prices n o0 with
      | error e =>
        refine ⟨o0, ?_, Or.inl rfl⟩
        rw [alookup, if_pos rfl]
      | ok r =>
        refine ⟨r.1, ?_, Or.inr ⟨n, r.2, by rw [hstep]⟩⟩
        rw [alookup, if_pos rfl]
    · rw [alookup, if_neg hk] at hlk
      simp only [brokerOrdersLoop]
      cases hstep : brokerUpdateStep tcRate relief t prices n o0 with
      | error e =>
        refine ⟨o, ?_, Or.inl rfl⟩
        rw [alookup, if_neg hk]
        exact hlk
      | ok r =>
        obtain ⟨o₁, h₁, hc⟩ := ih r.2 k o hlk
        refine ⟨o₁, ?_, hc⟩
        rw [alookup, if_neg hk]
        exact h₁

/-- Per-`BacktestBroker.update` version of the trailing-stop monotonicity. -/
theorem brokerUpdate_trailing_mono (s : Sys) (t : ℤ) (prices : List (String × ℚ))
    (k : ℕ) (o : Order) (st : ℚ)
    (hlk : alookup s.brokerOrders k = some o)
    (hty : o.order_type = OrderType.TRAILING_STOP)
    (hstop : o.stop = some st) :
    ∃ o₁, alookup (brokerUpdate s t prices).1.brokerOrders k = some o₁ ∧
      o₁.order_type = OrderType.TRAILING_STOP ∧ o₁.order_side = o.order_side ∧
      ∃ st', o₁.stop = some st' ∧
        (o.order_side = OrderSide.SELL → st ≤ st') ∧
        (o.order_side = OrderSide.BUY → st' ≤ st) := by
  have hb : (brokerUpdate s t prices).1.brokerOrders =
      (brokerOrdersLoop s.transaction_cost s.trailing_stop_penalty_relief t prices
        s.brokerOrders s.nextId).1 := by
    simp [brokerUpdate]
  obtain ⟨o₁, h₁, hc⟩ := brokerOrdersLoop_lookup s.transaction_cost
    s.trailing_stop_penalty_relief t prices s.brokerOrders s.nextId k o hlk
  rw [← hb] at h₁
  rcases hc with rfl | ⟨n0, n1, hstep⟩
  · exact ⟨o₁, h₁, hty, rfl, st, hstop, fun _ => le_refl st, fun _ => le_refl st⟩
  · obtain ⟨hty', hside', st', hst', hs, hbuy⟩ :=
      brokerUpdateStep_trailing_mono _ _ _ _ _ _ _ _ st hty hstop hstep
    exact ⟨o₁, h₁, hty', hside', st', hst', hs, hbuy⟩

/-- C3 (amended): across any sequence of consecutive `BacktestBroker.update`
calls (whatever the price path — favorable movement included), a
TRAILING_STOP order's stop amount is non-decreasing for a SELL-side order
and non-increasing for a BUY-side order; it never reverses.  (The claim
states the two sides the other way round.) -/
theorem trailing_stop_monotone_over_ticks (ticks : List (ℤ × List (String × ℚ)))
    (s : Sys) (k : ℕ) (o : Order) (st : ℚ)
    (hlk : alookup s.brokerOrders k = some o)
    (hty : o.order_type = OrderType.TRAILING_STOP)
    (hstop : o.stop = some st) :
    ∀ o', alookup (runTicks s ticks).1.brokerOrders k = some o' →
      (o.order_side = OrderSide.SELL → ∃ st', o'.stop = some st' ∧ st ≤ st') ∧
      (o.order_side = OrderSide.BUY → ∃ st', o'.stop = some st' ∧ st' ≤ st) := by
  induction ticks generalizing s o st with
  | nil =>
    intro o' h'
    rw [runTicks] at h'
    rw [hlk] at h'
    obtain rfl : o = o' := by simpa using h'
    exact ⟨fun _ => ⟨st, hstop, le_refl st⟩, fun _ => ⟨st, hstop, le_refl st⟩⟩
  | cons tick rest ih =>
    obtain ⟨t, p⟩ := tick
    intro o' h'
    obtain ⟨o₁, h₁, hty₁, hside₁, st₁, hst₁, hsell₁, hbuy₁⟩ :=
      brokerUpdate_trailing_mono s t p k o st hlk hty hstop
    rw [runTicks] at h'
    cases hbu : brokerUpdate s t p with
    | mk s' e =>
      rw [hbu] at h'
      rw [hbu] at h₁
      cases e with
      | some err =>
        simp only at h'
        rw [h₁] at h'
        obtain rfl : o₁ = o' := by simpa using h'
        refine ⟨fun hs => ⟨st₁, hst₁, hsell₁ hs⟩, fun hb => ⟨st₁, hst₁, hbuy₁ hb⟩⟩
      | none =>
        simp only at h'
        have hrec := ih s' o₁ st₁ h₁ hty₁ hst₁ o' h'
        refine ⟨fun hs => ?_, fun hb => ?_⟩
        · obtain ⟨st₂, hst₂, hle₂⟩ := hrec.1 (hside₁.trans hs)
          exact ⟨st₂, hst₂, le_trans (hsell₁ hs) hle₂⟩
        · obtain ⟨st₂, hst₂, hle₂⟩ := hrec.2 (hside₁.trans hb)
          exact ⟨st₂, hst₂, le_trans hle₂ (hbuy₁ hb)⟩

/-- Witness for the amended C3 on the scenario's SELL trailing stop
(stop 99) over the rising ticks 105 then 110: the final stop is ≥ 99
(it is in fact 109). -/
theorem trailing_monotone_witness :
    alookup scn2.brokerOrders 2 = some tsOrder ∧
    tsOrder.order_type = OrderType.TRAILING_STOP ∧
    tsOrder.stop = some 99 ∧ tsOrder.order_side = OrderSide.SELL ∧
    (99 : ℚ) ≤ 109 := by
  have hlk : alookup scn2.brokerOrders 2 = some tsOrder := by
    rw [scn2_eq]; simp [scn2val, alookup]
  have hfinal : alookup (runTicks scn2 [(1, [("X", 105)]), (2, [("X", 110)])]).1.brokerOrders 2 =
      some { tsOrder with stop := some 109 } := by
    rw [scn2_eq]
    norm_num [runTicks, brokerUpdate, brokerOrdersLoop, brokerUpdateStep,
      executeOrderP, alookup, scn2val, mktOrder, mktTrade, tsOrder, scnPos,
      Option.some_ne_none]
  have h := trailing_stop_monotone_over_ticks [(1, [("X", 105)]), (2, [("X", 110)])]
    scn2 2 tsOrder 99 hlk (by simp [tsOrder]) (by simp [tsOrder])
    { tsOrder with stop := some 109 } hfinal
  obtain ⟨st', hst', hle⟩ := h.1 (by simp [tsOrder])
  obtain rfl : (109 : ℚ) = st' := by simpa using hst'
  exact ⟨hlk, by simp [tsOrder], by simp [tsOrder], by simp [tsOrder], hle⟩

/-! ## OCO cancellation (C7) -/

/-- Applying one trade touches the broker's table at most by one
`cancel_order`: the table is unchanged, or one key's status is set to
CANCELLED. -/
theorem processTradeStep_broker_shape (s : Sys) (o : Order) (tr : Trade) :
    (processTradeStep s o tr).brokerOrders = s.brokerOrders ∨
    ∃ oid, (processTradeStep s o tr).brokerOrders =
      s.brokerOrders.map (fun kv =>
        if kv.1 = oid then (kv.1, { kv.2 with status := OrderStatus.CANCELLED }) else kv) := by
  unfold processTradeStep
  split
  · exact Or.inl rfl
  · split
    · exact Or.inl rfl
    · dsimp only
      split
      · split
        · split
          · rename_i other hother
            exact Or.inr ⟨other.id, rfl⟩
          · exact Or.inl rfl
        · exact Or.inl rfl
      · exact Or.inl rfl

/-- If every order stored under key `k` is CANCELLED, that stays true
through `_process_order`'s per-trade application. -/
theorem processTradeStep_preserves_cancelled (s : Sys) (o : Order) (tr : Trade) (k : ℕ)
    (hc : ∀ o', alookup s.brokerOrders k = some o' → o'.status = OrderStatus.CANCELLED) :
    ∀ o', alookup (processTradeStep s o tr).brokerOrders k = some o' →
      o'.status = OrderStatus.CANCELLED := by
  intro o' h'
  rcases processTradeStep_broker_shape s o tr with heq | ⟨oid, heq⟩
  · rw [heq] at h'
    exact hc o' h'
  · rw [heq] at h'
    have h'' : (alookup s.brokerOrders k).map
        (fun v => if k = oid then ({ v with status := OrderStatus.CANCELLED } : Order) else v) =
        some o' :=
      (alookup_map_patch (fun v => ({ v with status := OrderStatus.CANCELLED } : Order))
        oid s.brokerOrders k).symm.trans h'
    cases hl : alookup s.brokerOrders k with
    | none => rw [hl] at h''; cases h''
    | some ov =>
      rw [hl] at h''
      obtain rfl : (if k = oid then ({ ov with status := OrderStatus.CANCELLED } : Order)
          else ov) = o' := by simpa using h''
      by_cases hk : k = oid
      · rw [if_pos hk]
      · rw [if_neg hk]
        exact hc ov hl

/-- Same preservation through a whole `_process_order`. -/
theorem processOrder_preserves_cancelled (o : Order) :
    ∀ (l : List Trade) (s : Sys) (k : ℕ),
      (∀ o', alookup s.brokerOrders k = some o' → o'.status = OrderStatus.CANCELLED) →
      ∀ o', alookup (l.foldl (fun s tr => processTradeStep s o tr) s).brokerOrders k = some o' →
        o'.status = OrderStatus.CANCELLED := by
  intro l
  induction l with
  | nil => intro s k hc o' h'; exact hc o' h'
  | cons tr rest ih =>
    intro s k hc o' h'
    exact ih (processTradeStep s o tr) k
      (processTradeStep_preserves_cancelled s o tr k hc) o' h'

/-- Same preservation through the rest of the reconciliation loop: the
loop's only broker-side writes are `cancel_order` calls, which never
un-cancel. -/
theorem updateOrdersLoop_preserves_cancelled :
    ∀ (ids : List ℕ) (s : Sys) (k : ℕ),
      (∀ o', alookup s.brokerOrders k = some o' → o'.status = OrderStatus.CANCELLED) →
      ∀ o', alookup (updateOrdersLoop s ids).1.brokerOrders k = some o' →
        o'.status = OrderStatus.CANCELLED := by
  intro ids
  induction ids with
  | nil => intro s k hc o' h'; exact hc o' h'
  | cons oid rest ih =>
    intro s k hc o' h'
    rw [updateOrdersLoop] at h'
    cases hl : alookup s.brokerOrders oid with
    | none =>
      rw [hl] at h'
      exact hc o' h'
    | some o0 =>
      rw [hl] at h'
      exact ih (processOrder s o0) k
        (processOrder_preserves_cancelled o0 o0.trades s k hc) o' h'

/-- C7: when a SELL TAKE_PROFIT or STOP_LOSS order's fill is applied during
reconciliation (`_process_order`) — a fresh trade, an open position for the
symbol, and a pending sibling of the complementary type found among the
portfolio's orders — the sibling is cancelled at the Broker as part of
applying that trade, and it is still CANCELLED after reconciliation
processes any remaining orders of the same pass. -/
theorem oco_sibling_cancelled (s : Sys) (o : Order) (tr : Trade) (ob : Order)
    (hside : o.order_side = OrderSide.SELL)
    (hty : o.order_type = OrderType.TAKE_PROFIT ∨ o.order_type = OrderType.STOP_LOSS)
    (hnew : tr.id ∉ s.processed_trades)
    (hpos : s.positions.any (fun p => decide (p.symbol = tr.symbol ∧ p.is_open = true)) = true)
    (hfind : (portfolioOrderVals s).find? (fun oo =>
        decide (oo.symbol = tr.symbol ∧
                oo.order_type = otherProtectiveType o.order_type ∧
                oo.status = OrderStatus.PENDING)) = some ob) :
    (∀ o', alookup (processTradeStep s o tr).brokerOrders ob.id = some o' →
        o'.status = OrderStatus.CANCELLED) ∧
    ∀ ids o', alookup (updateOrdersLoop (processTradeStep s o tr) ids).1.brokerOrders ob.id =
        some o' → o'.status = OrderStatus.CANCELLED := by
  have hbroker : (processTradeStep s o tr).brokerOrders =
      (cancelOrder s ob.id).brokerOrders := by
    unfold processTradeStep
    rw [if_neg hnew]
    simp only [hside]
    try dsimp only
    rw [if_pos hpos]
    try dsimp only
    rw [if_pos hty]
    have hfind2 : List.find? (fun oo =>
        decide (oo.symbol = tr.symbol ∧
                oo.order_type = otherProtectiveType o.order_type ∧
                oo.status = OrderStatus.PENDING)) (portfolioOrderVals
          { s with
            cash := s.cash + (tr.price * tr.quantity - tr.transaction_costs),
            asset_holdings := dictInsert s.asset_holdings tr.symbol
              ((alookup s.asset_holdings tr.symbol).getD 0 - tr.quantity),
            positions := updateFirstOpenPos tr.symbol (fun p => p.closeAt tr.price)
              s.positions }) = some ob := hfind
    rw [hfind2]
    rfl
  have hstep : ∀ o', alookup (processTradeStep s o tr).brokerOrders ob.id = some o' →
      o'.status = OrderStatus.CANCELLED := by
    intro o' h'
    rw [hbroker, alookup_cancelOrder] at h'
    cases hl : alookup s.brokerOrders ob.id with
    | none =>
      rw [hl] at h'
      cases h'
    | some ov =>
      rw [hl] at h'
      obtain rfl : ({ ov with status := OrderStatus.CANCELLED } : Order) = o' := by
        simpa using h'
      rfl
  exact ⟨hstep, fun ids o' h' =>
    updateOrdersLoop_preserves_cancelled ids (processTradeStep s o tr) ob.id hstep o' h'⟩

/-- A concrete OCO configuration: an open position on "Y" protected by a
TAKE_PROFIT order (id 10, just FILLED with trade 90) and a PENDING
STOP_LOSS sibling (id 11). -/
def ocoTrade : Trade :=
  { id := 90, order_id := 10, symbol := "Y", order_type := OrderType.TAKE_PROFIT,
    order_side := OrderSide.SELL, price := 121, quantity := 1,
    timestamp := some 3, transaction_costs := 0 }

def ocoTP : Order :=
  { id := 10, symbol := "Y", order_type := OrderType.TAKE_PROFIT,
    order_side := OrderSide.SELL, quantity := 1, trail := none, limit := none,
    stop := some 120, status := OrderStatus.FILLED, timestamp := some 3,
    trades := [ocoTrade] }

def ocoSL : Order :=
  { id := 11, symbol := "Y", order_type := OrderType.STOP_LOSS,
    order_side := OrderSide.SELL, quantity := 1, trail := none, limit := none,
    stop := some 80, status := OrderStatus.PENDING, timestamp := some 3, trades := [] }

def ocoSys : Sys :=
  { initSys 0 0 0 with
    brokerOrders := [(10, ocoTP), (11, ocoSL)],
    current_prices := [("Y", 121)],
    portfolioOrders := [10, 11],
    positions := [{ Position.make "Y" PositionSide.LONG 100 none (some (1/5)) (some (1/5)) with
      quantity := some 1, open_price := some 100 }],
    nextId := 12 }

/-- The STOP_LOSS sibling after the OCO cancellation. -/
def ocoSLCancelled : Order := { ocoSL with status := OrderStatus.CANCELLED }

/-- Witness for C7: on `ocoSys`, applying the TAKE_PROFIT's fill cancels
the STOP_LOSS sibling, both right after the trade and after the rest of
the pass processes the remaining order ids. -/
theorem oco_sibling_cancelled_witness :
    alookup (processTradeStep ocoSys ocoTP ocoTrade).brokerOrders 11 = some ocoSLCancelled ∧
    alookup (updateOrdersLoop (processTradeStep ocoSys ocoTP ocoTrade)
      [10, 11]).1.brokerOrders 11 = some ocoSLCancelled ∧
    ocoSLCancelled.status = OrderStatus.CANCELLED := by
  have h := oco_sibling_cancelled ocoSys ocoTP ocoTrade ocoSL
    (by simp [ocoTP]) (Or.inl (by simp [ocoTP]))
    (by simp [ocoSys, initSys, ocoTrade])
    (by simp [ocoSys, initSys, ocoTrade, Position.make])
    (by simp [ocoSys, initSys, ocoTrade, ocoTP, ocoSL, portfolioOrderVals, alookup,
      otherProtectiveType, List.find?, List.filterMap])
  have hv : alookup (processTradeStep ocoSys ocoTP ocoTrade).brokerOrders 11 =
      some ocoSLCancelled := by
    norm_num [processTradeStep, ocoSys, initSys, ocoTrade, ocoTP, ocoSL, ocoSLCancelled,
      portfolioOrderVals, alookup, otherProtectiveType, cancelOrder, Position.make,
      updateFirstOpenPos, dictInsert, List.find?, List.filterMap]
  have hv2 : alookup (updateOrdersLoop (processTradeStep ocoSys ocoTP ocoTrade)
      [10, 11]).1.brokerOrders 11 = some ocoSLCancelled := by
    norm_num [updateOrdersLoop, processOrder, processTradeStep, ocoSys, initSys, ocoTrade,
      ocoTP, ocoSL, ocoSLCancelled, portfolioOrderVals, alookup, otherProtectiveType,
      cancelOrder, Position.make, updateFirstOpenPos, dictInsert, List.find?, List.filterMap]
  exact ⟨hv, hv2, h.1 ocoSLCancelled hv⟩

/-- Witness for the amended C4 at the relief-0 broker: the SELL trailing
stop at 100 triggered at 90 fills at `90 − (90 − 100)·0`. -/
theorem trailing_fill_price_witness :
    brokerUpdateStep 0 0 5 [("X", 90)] 8 c4Order =
      Except.ok ({ c4Order with trades := [trailingFillTrade 0 0 5 8 c4Order 100 90],
                                status := OrderStatus.FILLED }, 9) ∧
    (90 : ℚ) - (90 - 100) * 0 = 90 := by
  constructor
  · have h := trailing_fill_price_interpolates 0 0 5 [("X", 90)] 8 c4Order 100 90
      (by simp [c4Order]) (by simp [c4Order]) (by simp [c4Order])
      (by simp [c4Order, alookup]) (Or.inl ⟨by simp [c4Order], by norm_num⟩)
    rw [h.1]
    simp [c4Order]
  · norm_num

/-! ## Idempotence of reconciliation (C1)

`_process_order` skips every trade id already in `processed_trade_ids`, and
a full `Portfolio.update` never adds a trade to any order the portfolio
holds (the maintenance loop only creates TRAILING_STOP / TAKE_PROFIT /
STOP_LOSS orders, which `create_order` leaves unfilled), so a second
`update` with no broker activity in between replays as a no-op on
`cash`/`asset_holdings`. -/

theorem processTradeStep_skip (s : Sys) (o : Order) (tr : Trade)
    (h : tr.id ∈ s.processed_trades) : processTradeStep s o tr = s := by
  unfold processTradeStep
  rw [if_pos h]

theorem processTradeStep_portfolioOrders (s : Sys) (o : Order) (tr : Trade) :
    (processTradeStep s o tr).portfolioOrders = s.portfolioOrders := by
  unfold processTradeStep
  split
  · rfl
  · split
    · rfl
    · dsimp only
      split
      · split
        · split <;> rfl
        · rfl
      · rfl

theorem cancelOrder_optTrades (s : Sys) (oid k : ℕ) :
    (alookup (cancelOrder s oid).brokerOrders k).map Order.trades =
      (alookup s.brokerOrders k).map Order.trades := by
  rw [alookup_cancelOrder]
  cases alookup s.brokerOrders k with
  | none => rfl
  | some ov => by_cases hk : k = oid <;> simp [hk]

theorem processTradeStep_optTrades (s : Sys) (o : Order) (tr : Trade) (k : ℕ) :
    (alookup (processTradeStep s o tr).brokerOrders k).map Order.trades =
      (alookup s.brokerOrders k).map Order.trades := by
  rcases processTradeStep_broker_shape s o tr with heq | ⟨oid, heq⟩
  · rw [heq]
  · rw [heq]
    exact cancelOrder_optTrades s oid k

theorem processTradeStep_processed_mono (s : Sys) (o : Order) (tr : Trade) (x : ℕ)
    (hx : x ∈ s.processed_trades) : x ∈ (processTradeStep s o tr).processed_trades := by
  unfold processTradeStep
  split
  · exact hx
  · split
    · exact List.mem_append.mpr (Or.inl hx)
    · dsimp only
      split
      · split
        · split <;> exact List.mem_append.mpr (Or.inl hx)
        · exact List.mem_append.mpr (Or.inl hx)
      · exact List.mem_append.mpr (Or.inl hx)

theorem processTradeStep_adds (s : Sys) (o : Order) (tr : Trade) :
    tr.id ∈ (processTradeStep s o tr).processed_trades := by
  unfold processTradeStep
  split
  · assumption
  · split
    · exact List.mem_append.mpr (Or.inr (List.mem_singleton.mpr rfl))
    · dsimp only
      split
      · split
        · split <;> exact List.mem_append.mpr (Or.inr (List.mem_singleton.mpr rfl))
        · exact List.mem_append.mpr (Or.inr (List.mem_singleton.mpr rfl))
      · exact List.mem_append.mpr (Or.inr (List.mem_singleton.mpr rfl))

theorem foldlTrades_portfolioOrders (o : Order) :
    ∀ (l : List Trade) (s : Sys),
      (l.foldl (fun s tr => processTradeStep s o tr) s).portfolioOrders =
        s.portfolioOrders := by
  intro l
  induction l with
  | nil => intro s; rfl
  | cons tr rest ih =>
    intro s
    exact (ih (processTradeStep s o tr)).trans (processTradeStep_portfolioOrders s o tr)

theorem foldlTrades_optTrades (o : Order) :
    ∀ (l : List Trade) (s : Sys) (k : ℕ),
      (alookup (l.foldl (fun s tr => processTradeStep s o tr) s).brokerOrders k).map
          Order.trades =
        (alookup s.brokerOrders k).map Order.trades := by
  intro l
  induction l with
  | nil => intro s k; rfl
  | cons tr rest ih =>
    intro s k
    exact (ih (processTradeStep s o tr) k).trans (processTradeStep_optTrades s o tr k)

theorem foldlTrades_processed_mono (o : Order) :
    ∀ (l : List Trade) (s : Sys) (x : ℕ), x ∈ s.processed_trades →
      x ∈ (l.foldl (fun s tr => processTradeStep s o tr) s).processed_trades := by
  intro l
  induction l with
  | nil => intro s x hx; exact hx
  | cons tr rest ih =>
    intro s x hx
    exact ih (processTradeStep s o tr) x (processTradeStep_processed_mono s o tr x hx)

theorem foldlTrades_adds (o : Order) :
    ∀ (l : List Trade) (s : Sys) (tr : Trade), tr ∈ l →
      tr.id ∈ (l.foldl (fun s tr => processTradeStep s o tr) s).processed_trades := by
  intro l
  induction l with
  | nil => intro s tr htr; cases htr
  | cons tr0 rest ih =>
    intro s tr htr
    rcases List.mem_cons.mp htr with rfl | hm
    · exact foldlTrades_processed_mono o rest (processTradeStep s o tr) tr.id
        (processTradeStep_adds s o tr)
    · exact ih (processTradeStep s o tr0) tr hm

theorem foldlTrades_noop (o : Order) :
    ∀ (l : List Trade) (s : Sys),
      (∀ tr ∈ l, tr.id ∈ s.processed_trades) →
      l.foldl (fun s tr => processTradeStep s o tr) s = s := by
  intro l
  induction l with
  | nil => intro s _; rfl
  | cons tr0 rest ih =>
    intro s h
    have hstep : processTradeStep s o tr0 = s :=
      processTradeStep_skip s o tr0 (h tr0 (List.mem_cons_self tr0 rest))
    show List.foldl (fun s tr => processTradeStep s o tr) (processTradeStep s o tr0) rest = s
    rw [hstep]
    exact ih s (fun tr hm => h tr (List.mem_cons_of_mem tr0 hm))

theorem updateOrdersLoop_cons_none (s : Sys) (oid : ℕ) (rest : List ℕ)
    (hl : alookup s.brokerOrders oid = none) :
    updateOrdersLoop s (oid :: rest) = (s, some Err.attributeError) := by
  rw [updateOrdersLoop, hl]

theorem updateOrdersLoop_cons_some (s : Sys) (oid : ℕ) (rest : List ℕ) (o : Order)
    (hl : alookup s.brokerOrders oid = some o) :
    updateOrdersLoop s (oid :: rest) = updateOrdersLoop (processOrder s o) rest := by
  rw [updateOrdersLoop, hl]

theorem updateOrdersLoop_portfolioOrders :
    ∀ (ids : List ℕ) (s : Sys),
      (updateOrdersLoop s ids).1.portfolioOrders = s.portfolioOrders := by
  intro ids
  induction ids with
  | nil => intro s; rfl
  | cons oid rest ih =>
    intro s
    cases hl : alookup s.brokerOrders oid with
    | none => rw [updateOrdersLoop_cons_none s oid rest hl]
    | some o =>
      rw [updateOrdersLoop_cons_some s oid rest o hl]
      exact (ih (processOrder s o)).trans (foldlTrades_portfolioOrders o o.trades s)

theorem updateOrdersLoop_optTrades :
    ∀ (ids : List ℕ) (s : Sys) (k : ℕ),
      (alookup (updateOrdersLoop s ids).1.brokerOrders k).map Order.trades =
        (alookup s.brokerOrders k).map Order.trades := by
  intro ids
  induction ids with
  | nil => intro s k; rfl
  | cons oid rest ih =>
    intro s k
    cases hl : alookup s.brokerOrders oid with
    | none => rw [updateOrdersLoop_cons_none s oid rest hl]
    | some o =>
      rw [updateOrdersLoop_cons_some s oid rest o hl]
      exact (ih (processOrder s o) k).trans (foldlTrades_optTrades o o.trades s k)

theorem updateOrdersLoop_processed_mono :
    ∀ (ids : List ℕ) (s : Sys) (x : ℕ), x ∈ s.processed_trades →
      x ∈ (updateOrdersLoop s ids).1.processed_trades := by
  intro ids
  induction ids with
  | nil => intro s x hx; exact hx
  | cons oid rest ih =>
    intro s x hx
    cases hl : alookup s.brokerOrders oid with
    | none => rw [updateOrdersLoop_cons_none s oid rest hl]; exact hx
    | some o =>
      rw [updateOrdersLoop_cons_some s oid rest o hl]
      exact ih (processOrder s o) x (foldlTrades_processed_mono o o.trades s x hx)

/-- Reconciliation has nothing left to do on `ids`: every trade of every
order the portfolio can fetch under one of these ids has already been
applied (its id sits in `processed_trade_ids`). -/
def AllProcessed (s : Sys) (ids : List ℕ) : Prop :=
  ∀ oid ∈ ids, ∀ o, alookup s.brokerOrders oid = some o →
    ∀ tr ∈ o.trades, tr.id ∈ s.processed_trades

theorem updateOrdersLoop_noop :
    ∀ (ids : List ℕ) (s : Sys), AllProcessed s ids → (updateOrdersLoop s ids).1 = s := by
  intro ids
  induction ids with
  | nil => intro s _; rfl
  | cons oid rest ih =>
    intro s hAll
    cases hl : alookup s.brokerOrders oid with
    | none => rw [updateOrdersLoop_cons_none s oid rest hl]
    | some o =>
      rw [updateOrdersLoop_cons_some s oid rest o hl]
      have hpo : processOrder s o = s :=
        foldlTrades_noop o o.trades s
          (fun tr htr => hAll oid (List.mem_cons_self oid rest) o hl tr htr)
      show (updateOrdersLoop (processOrder s o) rest).1 = s
      rw [hpo]
      exact ih s (fun oid1 h1 => hAll oid1 (List.mem_cons_of_mem oid h1))

theorem updateOrdersLoop_post :
    ∀ (ids : List ℕ) (s s2 : Sys), updateOrdersLoop s ids = (s2, none) →
      AllProcessed s2 ids := by
  intro ids
  induction ids with
  | nil =>
    intro s s2 h oid hm
    cases hm
  | cons oid rest ih =>
    intro s s2 h
    cases hl : alookup s.brokerOrders oid with
    | none =>
      rw [updateOrdersLoop_cons_none s oid rest hl] at h
      exact absurd (congrArg Prod.snd h) (by simp)
    | some o =>
      rw [updateOrdersLoop_cons_some s oid rest o hl] at h
      have hrest : AllProcessed s2 rest := ih (processOrder s o) s2 h
      have hs2 : (updateOrdersLoop (processOrder s o) rest).1 = s2 := by rw [h]
      intro oid1 hm o1 hlo tr htr
      rcases List.mem_cons.mp hm with rfl | hm1
      · have hmap : (alookup s2.brokerOrders oid1).map Order.trades = some o.trades := by
          have h1 := updateOrdersLoop_optTrades rest (processOrder s o) oid1
          rw [hs2] at h1
          exact h1.trans ((foldlTrades_optTrades o o.trades s oid1).trans (by rw [hl]; rfl))
        rw [hlo] at hmap
        simp only [Option.map_some'] at hmap
        have htreq : o1.trades = o.trades := by injection hmap
        have hin : tr.id ∈ (processOrder s o).processed_trades :=
          foldlTrades_adds o o.trades s tr (htreq ▸ htr)
        have hfin := updateOrdersLoop_processed_mono rest (processOrder s o) tr.id hin
        rw [hs2] at hfin
        exact hfin
      · exact hrest oid1 hm1 o1 hlo tr htr

theorem updateOrdersLoop_fix :
    ∀ (ids : List ℕ) (s : Sys),
      (updateOrdersLoop (updateOrdersLoop s ids).1 ids).1 = (updateOrdersLoop s ids).1 := by
  intro ids
  induction ids with
  | nil => intro s; rfl
  | cons oid rest ih =>
    intro s
    cases hl : alookup s.brokerOrders oid with
    | none =>
      rw [updateOrdersLoop_cons_none s oid rest hl]
      show (updateOrdersLoop s (oid :: rest)).1 = s
      rw [updateOrdersLoop_cons_none s oid rest hl]
    | some o =>
      rw [updateOrdersLoop_cons_some s oid rest o hl]
      have hmap : (alookup (updateOrdersLoop (processOrder s o) rest).1.brokerOrders
          oid).map Order.trades = some o.trades :=
        (updateOrdersLoop_optTrades rest (processOrder s o) oid).trans
          ((foldlTrades_optTrades o o.trades s oid).trans (by rw [hl]; rfl))
      obtain ⟨o2, hl2, htr2⟩ : ∃ o2,
          alookup (updateOrdersLoop (processOrder s o) rest).1.brokerOrders oid = some o2 ∧
          o2.trades = o.trades := by
        cases hx : alookup (updateOrdersLoop (processOrder s o) rest).1.brokerOrders oid with
        | none => rw [hx] at hmap; cases hmap
        | some ov =>
          rw [hx] at hmap
          simp only [Option.map_some'] at hmap
          exact ⟨ov, rfl, by injection hmap⟩
      have hnoop : processOrder (updateOrdersLoop (processOrder s o) rest).1 o2 =
          (updateOrdersLoop (processOrder s o) rest).1 := by
        apply foldlTrades_noop
        intro tr htr
        rw [htr2] at htr
        exact updateOrdersLoop_processed_mono rest (processOrder s o) tr.id
          (foldlTrades_adds o o.trades s tr htr)
      rw [updateOrdersLoop_cons_some _ oid rest o2 hl2, hnoop]
      exact ih (processOrder s o)

set_option maxHeartbeats 3200000 in
theorem createOrder_frame (s : Sys) (symbol : String) (ot : OrderType) (osd : OrderSide)
    (quantity cash_amount trail limit stop take_profit : Option ℚ) (o : Order) (s2 : Sys)
    (h : createOrder s symbol ot osd quantity cash_amount trail limit stop take_profit =
      Except.ok (o, s2)) :
    s2.cash = s.cash ∧ s2.asset_holdings = s.asset_holdings ∧
    s2.processed_trades = s.processed_trades ∧
    s2.portfolioOrders = s.portfolioOrders ∧
    (∀ k, alookup s2.brokerOrders k =
      if k = o.id then some o else alookup s.brokerOrders k) ∧
    (ot ≠ OrderType.MARKET → ot ≠ OrderType.LIMIT → o.trades = []) := by
  unfold createOrder at h
  repeat' first
    | exact Except.noConfusion h
    | split at h
    | dsimp only at h
  all_goals try contradiction
  all_goals (
    injection h with h1
    injection h1 with ho hs
    subst hs
    refine ⟨rfl, rfl, rfl, rfl, ?_, ?_⟩
    · intro k
      rw [alookup_dictInsert]
      have hid : mkId s.nextId = o.id := congrArg Order.id ho
      rw [← hid, ho]
    · intro hm hl2
      first
        | exact (congrArg Order.trades ho).symm
        | exact absurd rfl hm
        | exact absurd rfl hl2
        | (rcases (by assumption : ot = OrderType.MARKET ∨ ot = OrderType.LIMIT) with hx | hx
           · exact absurd hx hm
           · exact absurd hx hl2))

theorem applyNewOrder_cash (s : Sys) (i : ℕ) (no : Option Order) :
    (applyNewOrder s i no).1.cash = s.cash := by
  cases no <;> rfl

theorem applyNewOrder_holdings (s : Sys) (i : ℕ) (no : Option Order) :
    (applyNewOrder s i no).1.asset_holdings = s.asset_holdings := by
  cases no <;> rfl

theorem applyNewOrder_processed (s : Sys) (i : ℕ) (no : Option Order) :
    (applyNewOrder s i no).1.processed_trades = s.processed_trades := by
  cases no <;> rfl

/-- The threaded `new_order` local (when bound) currently refers to an order
with no trades at the Broker: the form every freshly created protective
order has, preserved until a broker tick. -/
def NoTradesOpt (s : Sys) (no : Option Order) : Prop :=
  ∀ o, no = some o → ∀ o2, alookup s.brokerOrders o.id = some o2 → o2.trades = []

theorem noTradesOpt_none (s : Sys) : NoTradesOpt s none :=
  fun _ h => Option.noConfusion h

theorem allProcessed_of_optTrades (s s2 : Sys) (ids : List ℕ)
    (hb : ∀ k, (alookup s2.brokerOrders k).map Order.trades =
      (alookup s.brokerOrders k).map Order.trades)
    (hp : ∀ x, x ∈ s.processed_trades → x ∈ s2.processed_trades)
    (hA : AllProcessed s ids) : AllProcessed s2 ids := by
  intro oid hm o2 hlo tr htr
  have h1 : (alookup s.brokerOrders oid).map Order.trades = some o2.trades :=
    (hb oid).symm.trans (by rw [hlo]; rfl)
  cases hl : alookup s.brokerOrders oid with
  | none => rw [hl] at h1; cases h1
  | some o0 =>
    rw [hl] at h1
    simp only [Option.map_some'] at h1
    have ht : o0.trades = o2.trades := by injection h1
    exact hp tr.id (hA oid hm o0 hl tr (ht ▸ htr))

theorem noTradesOpt_of_optTrades (s s2 : Sys) (no : Option Order)
    (hb : ∀ k, (alookup s2.brokerOrders k).map Order.trades =
      (alookup s.brokerOrders k).map Order.trades)
    (hN : NoTradesOpt s no) : NoTradesOpt s2 no := by
  intro o hno o2 hlo
  have h1 : (alookup s.brokerOrders o.id).map Order.trades = some o2.trades :=
    (hb o.id).symm.trans (by rw [hlo]; rfl)
  cases hl : alookup s.brokerOrders o.id with
  | none => rw [hl] at h1; cases h1
  | some o0 =>
    rw [hl] at h1
    simp only [Option.map_some'] at h1
    have ht : o0.trades = o2.trades := by injection h1
    rw [← ht]
    exact hN o hno o0 hl

theorem allProcessed_patch (s s2 : Sys) (ids : List ℕ) (onew : Order)
    (hb : ∀ k, alookup s2.brokerOrders k =
      if k = onew.id then some onew else alookup s.brokerOrders k)
    (htr0 : onew.trades = [])
    (hp : s2.processed_trades = s.processed_trades)
    (hA : AllProcessed s ids) : AllProcessed s2 ids := by
  intro oid hm o2 hlo tr htr
  rw [hb oid] at hlo
  by_cases hk : oid = onew.id
  · rw [if_pos hk] at hlo
    obtain rfl : onew = o2 := by injection hlo
    rw [htr0] at htr
    cases htr
  · rw [if_neg hk] at hlo
    rw [hp]
    exact hA oid hm o2 hlo tr htr

theorem noTradesOpt_patch (s s2 : Sys) (no : Option Order) (onew : Order)
    (hb : ∀ k, alookup s2.brokerOrders k =
      if k = onew.id then some onew else alookup s.brokerOrders k)
    (htr0 : onew.trades = [])
    (hN : NoTradesOpt s no) : NoTradesOpt s2 no := by
  intro o hno o2 hlo
  rw [hb o.id] at hlo
  by_cases hk : o.id = onew.id
  · rw [if_pos hk] at hlo
    obtain rfl : onew = o2 := by injection hlo
    exact htr0
  · rw [if_neg hk] at hlo
    exact hN o hno o2 hlo

theorem allProcessed_addId (s : Sys) (ids : List ℕ) (k : ℕ)
    (hA : AllProcessed s ids)
    (hk : ∀ o2, alookup s.brokerOrders k = some o2 → o2.trades = []) :
    AllProcessed s (addId ids k) := by
  intro oid hm o2 hlo tr htr
  have hm2 : oid ∈ ids ∨ oid = k := by
    unfold addId at hm
    by_cases hin : k ∈ ids
    · rw [if_pos hin] at hm
      exact Or.inl hm
    · rw [if_neg hin] at hm
      rcases List.mem_append.mp hm with h1 | h1
      · exact Or.inl h1
      · exact Or.inr (List.mem_singleton.mp h1)
  rcases hm2 with h1 | rfl
  · exact hA oid h1 o2 hlo tr htr
  · rw [hk o2 hlo] at htr
    cases htr

set_option maxHeartbeats 1600000 in
theorem maintenanceStep_frame (s : Sys) (i : ℕ) (no : Option Order) :
    (maintenanceStep s i no).1.1.cash = s.cash ∧
    (maintenanceStep s i no).1.1.asset_holdings = s.asset_holdings ∧
    (maintenanceStep s i no).1.1.processed_trades = s.processed_trades := by
  unfold maintenanceStep
  repeat' first
    | split
    | dsimp only
  all_goals first
    | exact ⟨rfl, rfl, rfl⟩
    | exact ⟨applyNewOrder_cash _ _ _, applyNewOrder_holdings _ _ _,
        applyNewOrder_processed _ _ _⟩
    | (obtain ⟨hc, hh, hp, _⟩ := createOrder_frame _ _ _ _ _ _ _ _ _ _ _ _ (by assumption)
       first
         | exact ⟨hc, hh, hp⟩
         | exact ⟨(applyNewOrder_cash _ _ _).trans hc, (applyNewOrder_holdings _ _ _).trans hh,
             (applyNewOrder_processed _ _ _).trans hp⟩)
    | (obtain ⟨hc1, hh1, hp1, _⟩ := createOrder_frame s _ _ _ _ _ _ _ _ _ _ _ (by assumption)
       obtain ⟨hc2, hh2, hp2, _⟩ := createOrder_frame _ _ _ _ _ _ _ _ _ _ _ _ (by assumption)
       first
         | exact ⟨hc2.trans hc1, hh2.trans hh1, hp2.trans hp1⟩
         | exact ⟨(applyNewOrder_cash _ _ _).trans (hc2.trans hc1),
             (applyNewOrder_holdings _ _ _).trans (hh2.trans hh1),
             (applyNewOrder_processed _ _ _).trans (hp2.trans hp1)⟩)

theorem afterCreate_done (P : Sys) (sym : String) (ty : OrderType) (sd : OrderSide)
    (q c t l st tp : Option ℚ) (o : Order) (s1 : Sys) (i : ℕ)
    (heq : createOrder P sym ty sd q c t l st tp = Except.ok (o, s1))
    (hne1 : ty ≠ OrderType.MARKET) (hne2 : ty ≠ OrderType.LIMIT)
    (hA : AllProcessed P P.portfolioOrders) :
    AllProcessed (applyNewOrder s1 i (some o)).1
      (applyNewOrder s1 i (some o)).1.portfolioOrders ∧
    NoTradesOpt (applyNewOrder s1 i (some o)).1 (applyNewOrder s1 i (some o)).2 := by
  obtain ⟨_, _, hp, hport, hb, htr⟩ := createOrder_frame _ _ _ _ _ _ _ _ _ _ _ _ heq
  have ht0 : o.trades = [] := htr hne1 hne2
  have hk : ∀ o2, alookup s1.brokerOrders o.id = some o2 → o2.trades = [] := by
    intro o2 hlo
    rw [hb o.id, if_pos rfl] at hlo
    have h2 : o = o2 := by injection hlo
    exact h2 ▸ ht0
  have hA1 : AllProcessed s1 P.portfolioOrders := allProcessed_patch P s1 _ o hb ht0 hp hA
  have hA2 : AllProcessed s1 s1.portfolioOrders := by rw [hport]; exact hA1
  have hA3 : AllProcessed s1 (addId s1.portfolioOrders o.id) :=
    allProcessed_addId s1 s1.portfolioOrders o.id hA2 hk
  constructor
  · intro a hm b hlo tr htr2
    exact hA3 a hm b hlo tr htr2
  · intro o0 h0 o2 hlo
    have h2 : o = o0 := by injection h0
    cases h2
    exact hk o2 hlo

theorem afterCreateErr_done (P : Sys) (sym : String) (ty : OrderType) (sd : OrderSide)
    (q c t l st tp : Option ℚ) (o : Order) (s1 : Sys) (no : Option Order)
    (heq : createOrder P sym ty sd q c t l st tp = Except.ok (o, s1))
    (hne1 : ty ≠ OrderType.MARKET) (hne2 : ty ≠ OrderType.LIMIT)
    (hA : AllProcessed P P.portfolioOrders) (hN : NoTradesOpt P no) :
    AllProcessed s1 s1.portfolioOrders ∧ NoTradesOpt s1 no := by
  obtain ⟨_, _, hp, hport, hb, htr⟩ := createOrder_frame _ _ _ _ _ _ _ _ _ _ _ _ heq
  have ht0 : o.trades = [] := htr hne1 hne2
  constructor
  · rw [hport]
    exact allProcessed_patch P s1 _ o hb ht0 hp hA
  · exact noTradesOpt_patch P s1 no o hb ht0 hN

theorem applyStale_done (P : Sys) (i : ℕ) (no : Option Order)
    (hA : AllProcessed P P.portfolioOrders) (hN : NoTradesOpt P no) :
    AllProcessed (applyNewOrder P i no).1 (applyNewOrder P i no).1.portfolioOrders ∧
    NoTradesOpt (applyNewOrder P i no).1 (applyNewOrder P i no).2 := by
  cases no with
  | none => exact ⟨hA, noTradesOpt_none P⟩
  | some o0 =>
    have hk : ∀ o2, alookup P.brokerOrders o0.id = some o2 → o2.trades = [] := hN o0 rfl
    have hA2 : AllProcessed P (addId P.portfolioOrders o0.id) :=
      allProcessed_addId P P.portfolioOrders o0.id hA hk
    constructor
    · intro a hm b hlo tr htr
      exact hA2 a hm b hlo tr htr
    · intro o1 h1 o2 hlo
      have h2 : o0 = o1 := by injection h1
      cases h2
      exact hk o2 hlo

theorem afterCreate2_done (P : Sys) (sym1 : String) (ty1 : OrderType) (sd1 : OrderSide)
    (q1 c1 t1 l1 st1 tp1 : Option ℚ) (o1 : Order) (s1 : Sys)
    (sym2 : String) (ty2 : OrderType) (sd2 : OrderSide)
    (q2 c2 t2 l2 st2 tp2 : Option ℚ) (o2 : Order) (s2 : Sys) (i : ℕ) (no : Option Order)
    (Q : List Position)
    (heq1 : createOrder P sym1 ty1 sd1 q1 c1 t1 l1 st1 tp1 = Except.ok (o1, s1))
    (heq2 : createOrder s1 sym2 ty2 sd2 q2 c2 t2 l2 st2 tp2 = Except.ok (o2, s2))
    (hne11 : ty1 ≠ OrderType.MARKET) (hne12 : ty1 ≠ OrderType.LIMIT)
    (hne21 : ty2 ≠ OrderType.MARKET) (hne22 : ty2 ≠ OrderType.LIMIT)
    (hA : AllProcessed P P.portfolioOrders) (hN : NoTradesOpt P no) :
    AllProcessed (applyNewOrder { s2 with
        portfolioOrders := addId (addId s2.portfolioOrders o1.id) o2.id,
        positions := Q } i no).1
      (applyNewOrder { s2 with
        portfolioOrders := addId (addId s2.portfolioOrders o1.id) o2.id,
        positions := Q } i no).1.portfolioOrders ∧
    NoTradesOpt (applyNewOrder { s2 with
        portfolioOrders := addId (addId s2.portfolioOrders o1.id) o2.id,
        positions := Q } i no).1
      (applyNewOrder { s2 with
        portfolioOrders := addId (addId s2.portfolioOrders o1.id) o2.id,
        positions := Q } i no).2 := by
  obtain ⟨_, _, hp1, hport1, hb1, htr1⟩ := createOrder_frame _ _ _ _ _ _ _ _ _ _ _ _ heq1
  obtain ⟨_, _, hp2, hport2, hb2, htr2⟩ := createOrder_frame _ _ _ _ _ _ _ _ _ _ _ _ heq2
  have ht1 : o1.trades = [] := htr1 hne11 hne12
  have ht2 : o2.trades = [] := htr2 hne21 hne22
  have hA1 : AllProcessed s1 P.portfolioOrders := allProcessed_patch P s1 _ o1 hb1 ht1 hp1 hA
  have hA2 : AllProcessed s2 P.portfolioOrders := allProcessed_patch s1 s2 _ o2 hb2 ht2 hp2 hA1
  have hA2b : AllProcessed s2 s2.portfolioOrders := by rw [hport2, hport1]; exact hA2
  have hk2 : ∀ oX, alookup s2.brokerOrders o2.id = some oX → oX.trades = [] := by
    intro oX hlo
    rw [hb2 o2.id, if_pos rfl] at hlo
    have h2 : o2 = oX := by injection hlo
    exact h2 ▸ ht2
  have hk1 : ∀ oX, alookup s2.brokerOrders o1.id = some oX → oX.trades = [] := by
    intro oX hlo
    rw [hb2 o1.id] at hlo
    by_cases hcase : o1.id = o2.id
    · rw [if_pos hcase] at hlo
      have h2 : o2 = oX := by injection hlo
      exact h2 ▸ ht2
    · rw [if_neg hcase] at hlo
      rw [hb1 o1.id, if_pos rfl] at hlo
      have h2 : o1 = oX := by injection hlo
      exact h2 ▸ ht1
  have hA3 : AllProcessed s2 (addId (addId s2.portfolioOrders o1.id) o2.id) :=
    allProcessed_addId s2 _ o2.id
      (allProcessed_addId s2 s2.portfolioOrders o1.id hA2b hk1) hk2
  have hN2 : NoTradesOpt s2 no :=
    noTradesOpt_patch s1 s2 no o2 hb2 ht2 (noTradesOpt_patch P s1 no o1 hb1 ht1 hN)
  cases no with
  | none =>
    constructor
    · intro a hm b hlo tr htr
      exact hA3 a hm b hlo tr htr
    · exact noTradesOpt_none _
  | some o0 =>
    have hk0 : ∀ oX, alookup s2.brokerOrders o0.id = some oX → oX.trades = [] := hN2 o0 rfl
    have hA4 : AllProcessed s2 (addId (addId (addId s2.portfolioOrders o1.id) o2.id) o0.id) :=
      allProcessed_addId s2 _ o0.id hA3 hk0
    constructor
    · intro a hm b hlo tr htr
      exact hA4 a hm b hlo tr htr
    · intro oY hY oX hlo
      have h2 : o0 = oY := by injection hY
      cases h2
      exact hk0 oX hlo

set_option maxHeartbeats 1600000 in
theorem maintenanceStep_done (s : Sys) (i : ℕ) (no : Option Order)
    (hA : AllProcessed s s.portfolioOrders) (hN : NoTradesOpt s no) :
    AllProcessed (maintenanceStep s i no).1.1
      (maintenanceStep s i no).1.1.portfolioOrders ∧
    NoTradesOpt (maintenanceStep s i no).1.1 (maintenanceStep s i no).1.2 := by
  unfold maintenanceStep
  repeat' first
    | split
    | dsimp only
  all_goals first
    | exact ⟨hA, hN⟩
    | exact applyStale_done s i no hA hN
    | exact afterCreate_done _ _ _ _ _ _ _ _ _ _ _ _ _ (by assumption)
        (by decide) (by decide) hA
    | exact afterCreateErr_done _ _ _ _ _ _ _ _ _ _ _ _ _ (by assumption)
        (by decide) (by decide) hA hN
    | exact ⟨allProcessed_of_optTrades s _ _ (fun k => cancelOrder_optTrades s _ k)
          (fun x hx => hx) hA,
        noTradesOpt_of_optTrades s _ no (fun k => cancelOrder_optTrades s _ k) hN⟩
    | exact afterCreate_done _ _ _ _ _ _ _ _ _ _ _ _ _ (by assumption)
        (by decide) (by decide)
        (allProcessed_of_optTrades s _ _ (fun k => cancelOrder_optTrades s _ k)
          (fun x hx => hx) hA)
    | exact afterCreate2_done _ _ _ _ _ _ _ _ _ _ _ _ _ _ _ _ _ _ _ _ _ _ _ _ _ _
        (by assumption) (by assumption) (by decide) (by decide) (by decide) (by decide) hA hN

theorem maintLoop_frame :
    ∀ (idxs : List ℕ) (s : Sys) (no : Option Order),
      (maintLoop idxs s no).1.cash = s.cash ∧
      (maintLoop idxs s no).1.asset_holdings = s.asset_holdings ∧
      (maintLoop idxs s no).1.processed_trades = s.processed_trades := by
  intro idxs
  induction idxs with
  | nil => intro s no; exact ⟨rfl, rfl, rfl⟩
  | cons i rest ih =>
    intro s no
    have hf := maintenanceStep_frame s i no
    rw [maintLoop]
    cases hms : maintenanceStep s i no with
    | mk p e =>
      rw [hms] at hf
      cases p with
      | mk s1 no1 =>
        cases e with
        | some err => exact hf
        | none =>
          obtain ⟨h1, h2, h3⟩ := ih s1 no1
          exact ⟨h1.trans hf.1, h2.trans hf.2.1, h3.trans hf.2.2⟩

theorem maintLoop_done :
    ∀ (idxs : List ℕ) (s : Sys) (no : Option Order),
      AllProcessed s s.portfolioOrders → NoTradesOpt s no →
      AllProcessed (maintLoop idxs s no).1 (maintLoop idxs s no).1.portfolioOrders := by
  intro idxs
  induction idxs with
  | nil => intro s no hA _; exact hA
  | cons i rest ih =>
    intro s no hA hN
    have hd := maintenanceStep_done s i no hA hN
    rw [maintLoop]
    cases hms : maintenanceStep s i no with
    | mk p e =>
      rw [hms] at hd
      cases p with
      | mk s1 no1 =>
        cases e with
        | some err => exact hd.1
        | none => exact ih s1 no1 hd.1 hd.2

theorem updateOrders_eq_err (s sb : Sys) (e : Err)
    (hL : updateOrdersLoop s s.portfolioOrders = (sb, some e)) :
    updateOrders s = (sb, some e) := by
  unfold updateOrders
  rw [hL]

theorem updateOrders_eq_ok (s sb : Sys)
    (hL : updateOrdersLoop s s.portfolioOrders = (sb, none)) :
    updateOrders s = maintLoop (List.range sb.positions.length) sb none := by
  unfold updateOrders
  rw [hL]

theorem portfolioUpdate_eq_err (s sb : Sys) (e : Err) (t : ℤ)
    (prices : Option (List (String × ℚ)))
    (hU : updateOrders s = (sb, some e)) :
    portfolioUpdate s t prices = (sb, some e) := by
  unfold portfolioUpdate
  rw [hU]

theorem portfolioUpdate_eq_val (s sb : Sys) (t : ℤ)
    (prices : Option (List (String × ℚ)))
    (hU : updateOrders s = (sb, none)) :
    portfolioUpdate s t prices =
      match getValuation sb (some t) prices with
      | Except.error e => (sb, some e)
      | Except.ok v =>
        ({ sb with valuation_history := sb.valuation_history ++
            [{ timestamp := t, valuation := v, prices := prices,
               asset_holdings := sb.asset_holdings }] }, none) := by
  unfold portfolioUpdate
  rw [hU]

/-- Once the reconciliation loop is a fixpoint at `s1`, a whole
`Portfolio.update` at `s1` leaves cash and asset holdings unchanged. -/
theorem portfolioUpdate_refix (s1 : Sys) (t : ℤ) (prices : Option (List (String × ℚ)))
    (hfix : (updateOrdersLoop s1 s1.portfolioOrders).1 = s1) :
    (portfolioUpdate s1 t prices).1.cash = s1.cash ∧
    (portfolioUpdate s1 t prices).1.asset_holdings = s1.asset_holdings := by
  cases hL : updateOrdersLoop s1 s1.portfolioOrders with
  | mk sb e2 =>
    have hsb : sb = s1 := by rw [← hfix, hL]
    cases e2 with
    | some err =>
      rw [portfolioUpdate_eq_err s1 sb err t prices (updateOrders_eq_err s1 sb err hL)]
      exact ⟨congrArg Sys.cash hsb, congrArg Sys.asset_holdings hsb⟩
    | none =>
      have hU := updateOrders_eq_ok s1 sb hL
      cases hM : maintLoop (List.range sb.positions.length) sb none with
      | mk sm em =>
        have hU2 : updateOrders s1 = (sm, em) := hU.trans hM
        have hfr := maintLoop_frame (List.range sb.positions.length) sb none
        rw [hM] at hfr
        have hc : sm.cash = s1.cash := hfr.1.trans (congrArg Sys.cash hsb)
        have hh : sm.asset_holdings = s1.asset_holdings :=
          hfr.2.1.trans (congrArg Sys.asset_holdings hsb)
        cases em with
        | some e =>
          rw [portfolioUpdate_eq_err s1 sm e t prices hU2]
          exact ⟨hc, hh⟩
        | none =>
          rw [portfolioUpdate_eq_val s1 sm t prices hU2]
          cases hv : getValuation sm (some t) prices with
          | error e => exact ⟨hc, hh⟩
          | ok v => exact ⟨hc, hh⟩

/-- C1: calling `Portfolio.update(t, p)` twice in a row — no broker
activity in between, so no new trades appear at the Broker — leaves `cash`
and `asset_holdings` after the second call identical to their values after
the first: every trade id recorded in `processed_trade_ids` by the first
reconciliation is skipped by the second, and the protective-order
maintenance of either pass never touches cash or holdings (the orders it
creates carry no trades).  This holds on every outcome path of the first
call, error or not. -/
theorem update_twice_preserves_cash_holdings (s : Sys) (t : ℤ)
    (prices : Option (List (String × ℚ))) :
    (portfolioUpdate (portfolioUpdate s t prices).1 t prices).1.cash =
      (portfolioUpdate s t prices).1.cash ∧
    (portfolioUpdate (portfolioUpdate s t prices).1 t prices).1.asset_holdings =
      (portfolioUpdate s t prices).1.asset_holdings := by
  apply portfolioUpdate_refix
  cases hL : updateOrdersLoop s s.portfolioOrders with
  | mk sa e1 =>
    have hport : sa.portfolioOrders = s.portfolioOrders := by
      have h := updateOrdersLoop_portfolioOrders s.portfolioOrders s
      rw [hL] at h
      exact h
    cases e1 with
    | some err =>
      rw [portfolioUpdate_eq_err s sa err t prices (updateOrders_eq_err s sa err hL)]
      show (updateOrdersLoop sa sa.portfolioOrders).1 = sa
      rw [hport]
      have hf := updateOrdersLoop_fix s.portfolioOrders s
      rw [hL] at hf
      exact hf
    | none =>
      have hA : AllProcessed sa sa.portfolioOrders := by
        rw [hport]
        exact updateOrdersLoop_post s.portfolioOrders s sa hL
      have hU := updateOrders_eq_ok s sa hL
      cases hM : maintLoop (List.range sa.positions.length) sa none with
      | mk sm em =>
        have hU2 : updateOrders s = (sm, em) := hU.trans hM
        have hAm : AllProcessed sm sm.portfolioOrders := by
          have h := maintLoop_done (List.range sa.positions.length) sa none hA
            (noTradesOpt_none sa)
          rw [hM] at h
          exact h
        cases em with
        | some e =>
          rw [portfolioUpdate_eq_err s sm e t prices hU2]
          show (updateOrdersLoop sm sm.portfolioOrders).1 = sm
          exact updateOrdersLoop_noop sm.portfolioOrders sm hAm
        | none =>
          rw [portfolioUpdate_eq_val s sm t prices hU2]
          cases hv : getValuation sm (some t) prices with
          | error e =>
            show (updateOrdersLoop sm sm.portfolioOrders).1 = sm
            exact updateOrdersLoop_noop sm.portfolioOrders sm hAm
          | ok v =>
            apply updateOrdersLoop_noop
            intro a hm b hlo tr htr
            exact hAm a hm b hlo tr htr

end RoboTrader
